/-
Verification of the transactional bookkeeping logic of the inventory/billing
application (src/server/storage.ts, input contracts in src/shared/routes.ts).

Modelling conventions:
* JS numbers are modelled as exact rationals (ℚ); the database integer
  column for quantities is modelled as ℤ.
* `x.toFixed(2)` (the form in which every monetary value is persisted)
  is modelled as `round2`: rounding to the nearest multiple of 1/100,
  halves rounding up.
* Each relational table is a Lean list; `db.transaction` is modelled by
  the operation returning `Except`: a thrown error aborts the transaction
  and the committed state is the unchanged input state (the `run…`
  wrappers below realise exactly that rollback semantics).
* Dates (stored as ISO `YYYY-MM-DD` strings and compared by the SQL
  engine chronologically) are modelled as year/month/day triples with
  lexicographic order; `TO_CHAR(date, 'YYYY-MM')` is the (year, month)
  projection.
-/
import Mathlib

set_option maxHeartbeats 1600000

namespace Inventory

/-- Model of JavaScript's `x.toFixed(2)` on an exact rational: round to the
nearest hundredth (ties up), as the exact rational value of the stored
decimal string. -/
def round2 (q : ℚ) : ℚ := (round (q * 100) : ℤ) / 100

/-- Calendar date, the model of the ISO `YYYY-MM-DD` strings such as
`billDate` and `expenseDate`. -/
structure Date where
  year : Nat
  month : Nat
  day : Nat
deriving DecidableEq, Repr

/-- Chronological (equivalently for ISO strings: lexicographic) order on
dates, the model of SQL comparison of the date values. -/
def Date.le (a b : Date) : Bool :=
  decide (a.year < b.year ∨ (a.year = b.year ∧
    (a.month < b.month ∨ (a.month = b.month ∧ a.day ≤ b.day))))

/-- Model of `TO_CHAR(d::date, 'YYYY-MM')`: the year/month key used by the
dashboard GROUP BY. -/
def Date.monthKey (d : Date) : Nat × Nat := (d.year, d.month)

/-- Row of the `products` table. -/
structure Product where
  id : Nat
  name : String
  company : String
  productId : Option String
  uniqueId : String
  quantity : Int
  averageBuyPrice : ℚ
deriving DecidableEq, Repr

/-- Row of the `buy_bills` table. -/
structure BuyBill where
  id : Nat
  dealerName : Option String
  dealerGSTNumber : Option String
  gstPercentage : Option ℚ
  gstAmount : Option ℚ
  billDate : Date
  totalAmount : ℚ
deriving DecidableEq, Repr

/-- Row of the `buy_bill_items` table. -/
structure BuyBillItem where
  billId : Nat
  productRef : Nat
  uniqueId : String
  buyPrice : ℚ
  quantity : Int
  totalCost : ℚ
deriving DecidableEq, Repr

/-- Row of the `sell_bills` table. -/
structure SellBill where
  id : Nat
  customerName : Option String
  customerPhone : Option String
  customerGSTNumber : Option String
  gstPercentage : Option ℚ
  gstAmount : ℚ
  billDate : Date
  totalProfit : ℚ
  totalAmount : ℚ
deriving DecidableEq, Repr

/-- Row of the `sell_bill_items` table. -/
structure SellBillItem where
  billId : Nat
  productRef : Nat
  uniqueId : String
  sellingPrice : ℚ
  quantity : Int
  profitPerUnit : ℚ
  totalProfit : ℚ
deriving DecidableEq, Repr

/-- Row of the `expenses` table. -/
structure Expense where
  id : Nat
  amount : ℚ
  expenseType : String
  expenseDate : Date
  description : Option String
deriving DecidableEq, Repr

/-- The relational state: one list per table, plus the serial-id counters
of the `id` columns. -/
structure DB where
  products : List Product
  buyBills : List BuyBill
  buyBillItems : List BuyBillItem
  sellBills : List SellBill
  sellBillItems : List SellBillItem
  expenses : List Expense
  nextProductId : Nat
  nextBuyBillId : Nat
  nextSellBillId : Nat
deriving DecidableEq, Repr

/-- Item of `api.bills.createPurchase.input` (src/shared/routes.ts:59-66). -/
structure BuyItemReq where
  uniqueId : Option String
  name : String
  company : String
  productId : Option String
  buyPrice : ℚ
  quantity : Int
deriving DecidableEq, Repr

/-- `api.bills.createPurchase.input` (src/shared/routes.ts:54-67). -/
structure CreateBuyBillRequest where
  dealerName : Option String
  dealerGSTNumber : Option String
  gstPercentage : Option ℚ
  billDate : Date
  items : List BuyItemReq
deriving DecidableEq, Repr

/-- Item of `api.bills.createSell.input` (src/shared/routes.ts:82-86). -/
structure SellItemReq where
  uniqueId : String
  sellingPrice : ℚ
  quantity : Int
deriving DecidableEq, Repr

/-- `api.bills.createSell.input` (src/shared/routes.ts:76-87). -/
structure CreateSellBillRequest where
  customerName : Option String
  customerPhone : Option String
  customerGSTNumber : Option String
  gstPercentage : Option ℚ
  billDate : Date
  items : List SellItemReq
deriving DecidableEq, Repr

/-- Errors thrown inside the storage transactions, with the data that the
thrown `Error` message interpolates. -/
inductive StorageError where
  | productNotFound (uniqueId : String)
  | insufficientStock (name : String) (available : Int)
  | negativeStockOnDelete (name : String)
deriving DecidableEq, Repr

/-- The message string of the thrown `Error` (storage.ts:160, 163, 213). -/
def StorageError.message : StorageError → String
  | .productNotFound uid => "Product " ++ uid ++ " not found"
  | .insufficientStock name avail =>
      "Insufficient stock for " ++ name ++ ". Available: " ++ toString avail
  | .negativeStockOnDelete name =>
      "Cannot delete bill: Product " ++ name ++ " would have negative stock."

/-- `SELECT * FROM products WHERE unique_id = uid` (first row). -/
def findByUid (ps : List Product) (uid : String) : Option Product :=
  ps.find? (fun p => p.uniqueId = uid)

/-- `SELECT * FROM products WHERE id = i` (first row). -/
def findById (ps : List Product) (i : Nat) : Option Product :=
  ps.find? (fun p => p.id = i)

/-- Replace every maximal run of whitespace by a single hyphen: the model of
`.replace(/\s+/g, '-')` (storage.ts:89). -/
def collapseWhitespace : List Char → Bool → List Char
  | [], _ => []
  | c :: rest, inRun =>
      if c.isWhitespace then
        if inRun then collapseWhitespace rest true
        else '-' :: collapseWhitespace rest true
      else c :: collapseWhitespace rest false

/-- The generated unique id `[name, company, productId].filter(Boolean)
.join("-").toLowerCase().replace(/\s+/g, '-')` (storage.ts:88-89). -/
def generatedUniqueId (item : BuyItemReq) : String :=
  let parts := ([item.name, item.company] ++ item.productId.toList).filter
    (fun s => s ≠ "")
  let joined := String.intercalate "-" parts
  String.mk (collapseWhitespace (joined.toLower.toList) false)

/-- `let uniqueId = item.uniqueId; if (!uniqueId) { … }` (storage.ts:86-90):
an absent or empty (falsy) explicit id falls back to the generated one. -/
def genUniqueId (item : BuyItemReq) : String :=
  match item.uniqueId with
  | some u => if u = "" then generatedUniqueId item else u
  | none => generatedUniqueId item

/-- Body of the per-item loop of `createBuyBill` (storage.ts:84-133):
look up the product by unique id, creating it with zero stock on first
sight; recompute the weighted-average cost; store quantity and the
two-decimal rounded average; insert the bill-item row. -/
def applyBuyItem (billId : Nat) (db : DB) (item : BuyItemReq) : DB :=
  let uid := genUniqueId item
  let found : DB × Product :=
    match findByUid db.products uid with
    | some p => (db, p)
    | none =>
        let fresh : Product :=
          { id := db.nextProductId, name := item.name, company := item.company
            productId := item.productId, uniqueId := uid
            quantity := 0, averageBuyPrice := 0 }
        ({ db with products := db.products ++ [fresh]
                   nextProductId := db.nextProductId + 1 }, fresh)
  let db1 := found.1
  let product := found.2
  let oldQty := product.quantity
  let oldAvg := product.averageBuyPrice
  let totalValue := oldAvg * (oldQty : ℚ) + item.buyPrice * (item.quantity : ℚ)
  let totalQty := oldQty + item.quantity
  let newAvg := if totalQty > 0 then totalValue / (totalQty : ℚ) else 0
  let db2 : DB := { db1 with
    products := db1.products.map (fun p =>
      if p.id = product.id then
        { p with quantity := totalQty, averageBuyPrice := round2 newAvg }
      else p) }
  { db2 with
    buyBillItems := db2.buyBillItems ++
      [{ billId := billId, productRef := product.id, uniqueId := uid
         buyPrice := round2 item.buyPrice, quantity := item.quantity
         totalCost := round2 (item.buyPrice * (item.quantity : ℚ)) }] }

/-- `createBuyBill` (storage.ts:68-137): insert the bill header (total =
sum of price×quantity over the items, optional GST), then process the
items in order.  The loop throws nothing, so the transaction always
commits. -/
def createBuyBill (db : DB) (req : CreateBuyBillRequest) : DB × BuyBill :=
  let totalAmount := (req.items.map (fun i => i.buyPrice * (i.quantity : ℚ))).sum
  let gstAmount := req.gstPercentage.map (fun g => round2 (totalAmount * g / 100))
  let bill : BuyBill :=
    { id := db.nextBuyBillId, dealerName := req.dealerName
      dealerGSTNumber := req.dealerGSTNumber, gstPercentage := req.gstPercentage
      gstAmount := gstAmount, billDate := req.billDate
      totalAmount := round2 totalAmount }
  let db1 := { db with buyBills := db.buyBills ++ [bill]
                       nextBuyBillId := db.nextBuyBillId + 1 }
  (req.items.foldl (applyBuyItem bill.id) db1, bill)

/-- The state observed after the `createBuyBill` route handler: the loop
cannot throw, so the fully updated state is always committed. -/
def runCreateBuyBill (db : DB) (req : CreateBuyBillRequest) : DB × Option BuyBill :=
  ((createBuyBill db req).1, some (createBuyBill db req).2)

/-- Body of the per-item loop of `createSellBill` (storage.ts:158-189): look
up the product (throw if absent), throw if stock is insufficient, compute
the profit against the current average cost, decrement stock, insert the
bill-item row, and accumulate the running bill profit and amount. -/
def applySellItem (billId : Nat) (acc : DB × ℚ × ℚ) (item : SellItemReq) :
    Except StorageError (DB × ℚ × ℚ) :=
  let db := acc.1
  match findByUid db.products item.uniqueId with
  | none => .error (.productNotFound item.uniqueId)
  | some product =>
      if product.quantity < item.quantity then
        .error (.insufficientStock product.name product.quantity)
      else
        let avgBuyPrice := product.averageBuyPrice
        let profitPerUnit := item.sellingPrice - avgBuyPrice
        let totalItemProfit := profitPerUnit * (item.quantity : ℚ)
        let totalItemAmount := item.sellingPrice * (item.quantity : ℚ)
        let db1 : DB := { db with
          products := db.products.map (fun p =>
            if p.id = product.id then
              { p with quantity := product.quantity - item.quantity }
            else p) }
        .ok ({ db1 with
          sellBillItems := db1.sellBillItems ++
            [{ billId := billId, productRef := product.id
               uniqueId := product.uniqueId
               sellingPrice := round2 item.sellingPrice
               quantity := item.quantity
               profitPerUnit := round2 profitPerUnit
               totalProfit := round2 totalItemProfit }] },
          acc.2.1 + totalItemProfit, acc.2.2 + totalItemAmount)

/-- The placeholder bill header `createSellBill` inserts before its loop
(storage.ts:147-156): zero totals and GST, to be updated later. -/
def sellBill0 (db : DB) (req : CreateSellBillRequest) : SellBill :=
  { id := db.nextSellBillId, customerName := req.customerName
    customerPhone := req.customerPhone
    customerGSTNumber := req.customerGSTNumber
    gstPercentage := req.gstPercentage, gstAmount := 0
    billDate := req.billDate, totalProfit := 0, totalAmount := 0 }

/-- The state after `createSellBill` has inserted its placeholder header. -/
def sellDb1 (db : DB) (req : CreateSellBillRequest) : DB :=
  { db with sellBills := db.sellBills ++ [sellBill0 db req]
            nextSellBillId := db.nextSellBillId + 1 }

/-- `createSellBill` (storage.ts:139-201): insert the bill header with zero
placeholder totals, process the items in order (any throw aborts the
transaction), then write the accumulated totals and optional GST back to
the header. -/
def createSellBill (db : DB) (req : CreateSellBillRequest) :
    Except StorageError (DB × SellBill) :=
  match req.items.foldlM (applySellItem (sellBill0 db req).id)
      (sellDb1 db req, 0, 0) with
  | .error e => .error e
  | .ok (db2, billTotalProfit, billTotalAmount) =>
      let gstAmount :=
        match req.gstPercentage with
        | some g => billTotalAmount * g / 100
        | none => 0
      let bill : SellBill :=
        { sellBill0 db req with totalProfit := round2 billTotalProfit
                                totalAmount := round2 billTotalAmount
                                gstAmount := round2 gstAmount }
      .ok ({ db2 with sellBills := db2.sellBills.map (fun b =>
               if b.id = (sellBill0 db req).id then bill else b) }, bill)

/-- The state observed after the `createSellBill` route handler: a thrown
error makes `db.transaction` roll back, so the committed state is the
unchanged input state. -/
def runCreateSellBill (db : DB) (req : CreateSellBillRequest) :
    DB × Option SellBill :=
  match createSellBill db req with
  | .ok (db', bill) => (db', some bill)
  | .error _ => (db, none)

/-- Body of the per-item loop of `deleteBuyBill` (storage.ts:207-229): skip
items whose product row is gone, throw if removing the purchased quantity
would drive stock negative, otherwise subtract the item's total cost from
the product's current total value and store the recomputed average. -/
def deleteBuyItemStep (db : DB) (item : BuyBillItem) : Except StorageError DB :=
  match findById db.products item.productRef with
  | none => .ok db
  | some product =>
      let newQty := product.quantity - item.quantity
      if newQty < 0 then
        .error (.negativeStockOnDelete product.name)
      else
        let currentTotalVal := product.averageBuyPrice * (product.quantity : ℚ)
        let remainingTotalVal := currentTotalVal - item.totalCost
        let newAvg := if newQty > 0 then remainingTotalVal / (newQty : ℚ) else 0
        .ok { db with products := db.products.map (fun p =>
          if p.id = product.id then
            { p with quantity := newQty, averageBuyPrice := round2 newAvg }
          else p) }

/-- `deleteBuyBill` (storage.ts:203-234): reverse every item of the bill
(throwing aborts the transaction), then delete the bill's item rows and
the bill header. -/
def deleteBuyBill (db : DB) (id : Nat) : Except StorageError DB :=
  let items := db.buyBillItems.filter (fun i => i.billId = id)
  match items.foldlM deleteBuyItemStep db with
  | .error e => .error e
  | .ok db1 =>
      .ok { db1 with
        buyBillItems := db1.buyBillItems.filter (fun i => ¬ i.billId = id)
        buyBills := db1.buyBills.filter (fun b => ¬ b.id = id) }

/-- The state observed after the `deleteBuyBill` route handler: a thrown
error rolls the transaction back, leaving the state unchanged. -/
def runDeleteBuyBill (db : DB) (id : Nat) : DB :=
  match deleteBuyBill db id with
  | .ok db' => db'
  | .error _ => db

/-- `deleteSellBill` (storage.ts:236-253): add each item's quantity back to
its product (raw SQL update, a no-op for missing product rows), then
delete the bill's item rows and the bill header.  Nothing can throw. -/
def deleteSellBill (db : DB) (id : Nat) : DB :=
  let items := db.sellBillItems.filter (fun i => i.billId = id)
  let db1 := items.foldl (fun (db : DB) (item : SellBillItem) =>
    { db with products := db.products.map (fun p =>
        if p.id = item.productRef then
          { p with quantity := p.quantity + item.quantity }
        else p) }) db
  { db1 with
    sellBillItems := db1.sellBillItems.filter (fun i => ¬ i.billId = id)
    sellBills := db1.sellBills.filter (fun s => ¬ s.id = id) }

/-- `billDate BETWEEN 'Y-01-01' AND 'Y-12-31'` (getDashboardStats). -/
def Date.inYear (d : Date) (y : Nat) : Bool :=
  Date.le ⟨y, 1, 1⟩ d && Date.le d ⟨y, 12, 31⟩

/-- The `sales` CTE of the chart query (storage.ts:310-318), denotationally:
one row per distinct month key among the year's sell bills, carrying
`SUM(total_profit)` and `SUM(total_amount)` of that month's group. -/
def salesRows (db : DB) (y : Nat) : List ((Nat × Nat) × ℚ × ℚ) :=
  let bills := db.sellBills.filter (fun b => b.billDate.inYear y)
  ((bills.map (fun b => b.billDate.monthKey)).dedup).map (fun m =>
    (m, ((bills.filter (fun b => b.billDate.monthKey = m)).map
           (fun b => b.totalProfit)).sum,
        ((bills.filter (fun b => b.billDate.monthKey = m)).map
           (fun b => b.totalAmount)).sum))

/-- The `exps` CTE of the chart query (storage.ts:319-326), denotationally:
one row per distinct month key among the year's expenses, carrying
`SUM(amount)` of that month's group. -/
def expenseRows (db : DB) (y : Nat) : List ((Nat × Nat) × ℚ) :=
  let es := db.expenses.filter (fun e => e.expenseDate.inYear y)
  ((es.map (fun e => e.expenseDate.monthKey)).dedup).map (fun m =>
    (m, ((es.filter (fun e => e.expenseDate.monthKey = m)).map
           (fun e => e.amount)).sum))

/-- The `FULL OUTER JOIN` select of the chart query (storage.ts:327-333):
for each month key, `COALESCE(sales.profit, 0) - COALESCE(exps.amount, 0)`
and `COALESCE(sales.revenue, 0)`.  (The SQL additionally orders the rows
by month; row order carries no data and is not modelled.) -/
def monthlyChartRows (db : DB) (y : Nat) : List ((Nat × Nat) × ℚ × ℚ) :=
  let s := salesRows db y
  let e := expenseRows db y
  s.map (fun r =>
    (r.1, r.2.1 - ((e.filter (fun x => x.1 = r.1)).map (fun x => x.2)).sum,
     r.2.2)) ++
  (e.filter (fun x => (s.filter (fun r => r.1 = x.1)) = [])).map (fun x =>
    (x.1, 0 - x.2, 0))

/-- The result record of `getDashboardStats` (storage.ts:348-360), restricted
to its numeric content. -/
structure DashboardStats where
  currentMonthProfit : ℚ
  totalYearlyProfit : ℚ
  currentMonthRevenue : ℚ
  totalYearlyRevenue : ℚ
  currentMonthExpense : ℚ
  totalInventoryValue : ℚ
  monthlyData : List ((Nat × Nat) × ℚ × ℚ)
deriving DecidableEq, Repr

/-- `getDashboardStats` (storage.ts:267-361).  `now` is the wall-clock date;
`startOfMonth` is the first of the current real month, and every
current-month aggregate filters with `billDate >= startOfMonth` only (no
upper bound).  Yearly aggregates filter with BETWEEN on the target year. -/
def getDashboardStats (db : DB) (now : Date) (year : Option Nat) :
    DashboardStats :=
  let targetYear := year.getD now.year
  let startOfMonth : Date := ⟨now.year, now.month, 1⟩
  let monthlyProfit := ((db.sellBills.filter
    (fun b => Date.le startOfMonth b.billDate)).map
      (fun b => b.totalProfit)).sum
  let yearlyProfit := ((db.sellBills.filter
    (fun b => b.billDate.inYear targetYear)).map
      (fun b => b.totalProfit)).sum
  let mExpense := ((db.expenses.filter
    (fun e => Date.le startOfMonth e.expenseDate)).map
      (fun e => e.amount)).sum
  let yExpense := ((db.expenses.filter
    (fun e => e.expenseDate.inYear targetYear)).map
      (fun e => e.amount)).sum
  let monthlyRevenue := ((db.sellBills.filter
    (fun b => Date.le startOfMonth b.billDate)).map
      (fun b => b.totalAmount)).sum
  let yearlyRevenue := ((db.sellBills.filter
    (fun b => b.billDate.inYear targetYear)).map
      (fun b => b.totalAmount)).sum
  { currentMonthProfit := monthlyProfit - mExpense
    totalYearlyProfit := yearlyProfit - yExpense
    currentMonthRevenue := monthlyRevenue
    totalYearlyRevenue := yearlyRevenue
    currentMonthExpense := mExpense
    totalInventoryValue := (db.products.map
      (fun p => (p.quantity : ℚ) * p.averageBuyPrice)).sum
    monthlyData := monthlyChartRows db targetYear }

/-! ### Basic lemmas about rounding and lookups -/

theorem round2_zero : round2 0 = 0 := by
  simp [round2]

/-- Values that are whole multiples of a hundredth are fixed by `round2`. -/
theorem round2_div100 (n : ℤ) : round2 ((n : ℚ) / 100) = (n : ℚ) / 100 := by
  unfold round2
  rw [div_mul_cancel₀]
  · rw [round_intCast]
  · norm_num

/-- `find?` commutes with a map that does not disturb the predicate. -/
theorem find?_map_pres {α : Type} (f : α → α) (pred : α → Bool)
    (hf : ∀ x, pred (f x) = pred x) (l : List α) :
    (l.map f).find? pred = (l.find? pred).map f := by
  rw [List.find?_map]
  have h : pred ∘ f = pred := funext hf
  rw [h]

/-- Updating quantity and average of the product with a given id does not
disturb a lookup by unique id, and rewrites the found row. -/
theorem findByUid_map_qtyAvg (ps : List Product) (uid : String) (pid : Nat)
    (q : Int) (a : ℚ) :
    findByUid (ps.map (fun p => if p.id = pid then
        { p with quantity := q, averageBuyPrice := a } else p)) uid =
      (findByUid ps uid).map (fun p => if p.id = pid then
        { p with quantity := q, averageBuyPrice := a } else p) := by
  unfold findByUid
  apply find?_map_pres
  intro x
  by_cases h : x.id = pid <;> simp [h]

/-! ### Sell-side characterization -/

/-- The quantity-only product update performed by the sell loop's stock
decrement (storage.ts:175-177), as a pointwise function: the code writes
the absolute value `product.quantity - item.quantity` into the row whose
id matches the found product. -/
def setQty (pid : Nat) (c : Int) : Product → Product := fun p =>
  if p.id = pid then { p with quantity := c } else p

/-- Total quantity of the given bill items that reference a product id. -/
def qtySold (L : List SellBillItem) (pid : Nat) : Int :=
  ((L.filter (fun it => it.productRef = pid)).map (fun it => it.quantity)).sum

/-- The row the sell loop inserts for a request item (storage.ts:180-188),
computed against a products snapshot.  Only the id, unique id and average
price of the found row enter the record, and the loop's quantity updates
preserve all three. -/
def mkSellItem (ps : List Product) (billId : Nat) (i : SellItemReq) :
    SellBillItem :=
  match findByUid ps i.uniqueId with
  | some p =>
      ⟨billId, p.id, p.uniqueId, round2 i.sellingPrice, i.quantity,
       round2 (i.sellingPrice - p.averageBuyPrice),
       round2 ((i.sellingPrice - p.averageBuyPrice) * (i.quantity : ℚ))⟩
  | none => ⟨billId, 0, i.uniqueId, 0, 0, 0, 0⟩

/-- The unrounded profit contribution of one request item
(`profitPerUnit * quantity`, storage.ts:167-168) against a snapshot. -/
def lineProfit (ps : List Product) (i : SellItemReq) : ℚ :=
  match findByUid ps i.uniqueId with
  | some p => (i.sellingPrice - p.averageBuyPrice) * (i.quantity : ℚ)
  | none => 0

/-- Sequential stock sufficiency: the guard `product.quantity <
item.quantity` (storage.ts:162) evaluated item by item against the
running decremented stock, which is what "on-hand quantity at the time of
the sale" means inside a multi-item bill. -/
def canSell (ps : List Product) : List SellItemReq → Bool
  | [] => true
  | i :: rest =>
      match findByUid ps i.uniqueId with
      | none => false
      | some p =>
          if p.quantity < i.quantity then false
          else canSell (ps.map (setQty p.id (p.quantity - i.quantity))) rest

theorem setQty_id (pid : Nat) (c : Int) (p : Product) :
    (setQty pid c p).id = p.id := by
  unfold setQty; split <;> rfl

theorem setQty_uniqueId (pid : Nat) (c : Int) (p : Product) :
    (setQty pid c p).uniqueId = p.uniqueId := by
  unfold setQty; split <;> rfl

theorem setQty_name (pid : Nat) (c : Int) (p : Product) :
    (setQty pid c p).name = p.name := by
  unfold setQty; split <;> rfl

theorem setQty_averageBuyPrice (pid : Nat) (c : Int) (p : Product) :
    (setQty pid c p).averageBuyPrice = p.averageBuyPrice := by
  unfold setQty; split <;> rfl

/-- Lookup by unique id commutes with any update preserving unique ids. -/
theorem findByUid_map_pres (ps : List Product) (uid : String)
    (f : Product → Product) (hf : ∀ p, (f p).uniqueId = p.uniqueId) :
    findByUid (ps.map f) uid = (findByUid ps uid).map f := by
  unfold findByUid
  apply find?_map_pres
  intro x
  rw [hf]

theorem ids_map_setQty (ps : List Product) (pid : Nat) (c : Int) :
    (ps.map (setQty pid c)).map (fun p => p.id) = ps.map (fun p => p.id) := by
  rw [List.map_map]
  exact List.map_congr_left (fun p _ => setQty_id pid c p)

theorem mkSellItem_map_setQty (ps : List Product) (pid : Nat) (c : Int)
    (billId : Nat) (i : SellItemReq) :
    mkSellItem (ps.map (setQty pid c)) billId i = mkSellItem ps billId i := by
  unfold mkSellItem
  rw [findByUid_map_pres ps i.uniqueId _ (setQty_uniqueId pid c)]
  cases findByUid ps i.uniqueId with
  | none => rfl
  | some p =>
      simp [setQty_id, setQty_uniqueId, setQty_averageBuyPrice]

theorem lineProfit_map_setQty (ps : List Product) (pid : Nat) (c : Int)
    (i : SellItemReq) :
    lineProfit (ps.map (setQty pid c)) i = lineProfit ps i := by
  unfold lineProfit
  rw [findByUid_map_pres ps i.uniqueId _ (setQty_uniqueId pid c)]
  cases findByUid ps i.uniqueId with
  | none => rfl
  | some p => simp [setQty_averageBuyPrice]

theorem qtySold_nil (pid : Nat) : qtySold [] pid = 0 := rfl

theorem qtySold_cons (it : SellBillItem) (L : List SellBillItem) (pid : Nat) :
    qtySold (it :: L) pid =
      (if it.productRef = pid then it.quantity else 0) + qtySold L pid := by
  unfold qtySold
  rw [List.filter_cons]
  split
  · next h => simp only [List.map_cons, List.sum_cons]
              rw [if_pos (by simpa using h)]
  · next h => rw [if_neg (by simpa using h), zero_add]

/-- A successful sell-loop step is exactly: product found, stock
sufficient, stock decremented to the absolute found-minus-requested
value, one `mkSellItem` row appended, accumulators increased by the
unrounded line profit and amount. -/
theorem applySellItem_ok_char (bid : Nat) (db : DB) (tp ta : ℚ)
    (i : SellItemReq) (s : DB × ℚ × ℚ)
    (h : applySellItem bid (db, tp, ta) i = .ok s) :
    ∃ product, findByUid db.products i.uniqueId = some product ∧
      ¬ product.quantity < i.quantity ∧
      s = ({ db with
          products := db.products.map
            (setQty product.id (product.quantity - i.quantity))
          sellBillItems := db.sellBillItems ++ [mkSellItem db.products bid i] },
        tp + lineProfit db.products i,
        ta + i.sellingPrice * (i.quantity : ℚ)) := by
  cases hfind : findByUid db.products i.uniqueId with
  | none =>
      simp only [applySellItem, hfind] at h
      exact absurd h (by simp)
  | some product =>
      simp only [applySellItem, hfind] at h
      by_cases hq : product.quantity < i.quantity
      · rw [if_pos hq] at h
        exact absurd h (by simp)
      · rw [if_neg hq] at h
        refine ⟨product, rfl, hq, ?_⟩
        have hs := (Except.ok.injEq _ _).mp h.symm
        rw [hs]
        simp [mkSellItem, lineProfit, setQty, hfind]

/-- A failing sell-loop step is exactly: product missing (not-found error)
or stock insufficient (insufficient-stock error carrying the product's
name and its current on-hand quantity). -/
theorem applySellItem_error_char (bid : Nat) (db : DB) (tp ta : ℚ)
    (i : SellItemReq) (e : StorageError)
    (h : applySellItem bid (db, tp, ta) i = .error e) :
    (findByUid db.products i.uniqueId = none ∧
      e = .productNotFound i.uniqueId) ∨
    (∃ product, findByUid db.products i.uniqueId = some product ∧
      product.quantity < i.quantity ∧
      e = .insufficientStock product.name product.quantity) := by
  cases hfind : findByUid db.products i.uniqueId with
  | none =>
      simp only [applySellItem, hfind] at h
      exact .inl ⟨rfl, ((Except.error.injEq _ _).mp h).symm⟩
  | some product =>
      simp only [applySellItem, hfind] at h
      by_cases hq : product.quantity < i.quantity
      · rw [if_pos hq] at h
        exact .inr ⟨product, rfl, hq,
          ((Except.error.injEq _ _).mp h).symm⟩
      · rw [if_neg hq] at h
        exact absurd h (by simp)

/-- Complete characterization of a successful run of the sell loop over a
product table with distinct ids: every product keeps its id, unique id,
name and average price and loses exactly the quantities sold against it;
the appended rows are `mkSellItem` of the initial snapshot; no other
table moves; the accumulators gain the unrounded line profits and
amounts. -/
theorem sellFold_ok_char (bid : Nat) (items : List SellItemReq) :
    ∀ (db : DB) (tp ta : ℚ) (db2 : DB) (tp2 ta2 : ℚ),
    (db.products.map (fun p => p.id)).Nodup →
    items.foldlM (applySellItem bid) (db, tp, ta) = .ok (db2, tp2, ta2) →
    db2.products = db.products.map (fun p =>
      { p with quantity := p.quantity -
          qtySold (items.map (mkSellItem db.products bid)) p.id }) ∧
    db2.sellBillItems =
      db.sellBillItems ++ items.map (mkSellItem db.products bid) ∧
    db2.sellBills = db.sellBills ∧
    db2.buyBills = db.buyBills ∧
    db2.buyBillItems = db.buyBillItems ∧
    db2.expenses = db.expenses ∧
    db2.nextProductId = db.nextProductId ∧
    db2.nextBuyBillId = db.nextBuyBillId ∧
    db2.nextSellBillId = db.nextSellBillId ∧
    tp2 = tp + (items.map (lineProfit db.products)).sum ∧
    ta2 = ta + (items.map (fun i => i.sellingPrice * (i.quantity : ℚ))).sum := by
  induction items with
  | nil =>
      intro db tp ta db2 tp2 ta2 _ h
      rw [List.foldlM_nil] at h
      have h' : (db, tp, ta) = (db2, tp2, ta2) := (Except.ok.injEq _ _).mp h
      injection h' with hdb hrest
      injection hrest with htp hta
      subst hdb; subst htp; subst hta
      refine ⟨?_, by simp, rfl, rfl, rfl, rfl, rfl, rfl, rfl, by simp, by simp⟩
      have hfun : ∀ p ∈ db.products,
          p = ({ p with quantity := (p.quantity -
            qtySold (List.map (mkSellItem db.products bid) []) p.id) } : Product) := by
        intro p _
        rw [List.map_nil, qtySold_nil, sub_zero]
      exact List.map_congr_left hfun ▸ (List.map_id db.products).symm
  | cons i rest ih =>
      intro db tp ta db2 tp2 ta2 hids h
      rw [List.foldlM_cons] at h
      cases hstep : applySellItem bid (db, tp, ta) i with
      | error e =>
          rw [hstep] at h
          have h' : (Except.error e : Except StorageError (DB × ℚ × ℚ)) =
              .ok (db2, tp2, ta2) := h
          exact absurd h' (by simp)
      | ok s =>
          rw [hstep] at h
          have h' : rest.foldlM (applySellItem bid) s = .ok (db2, tp2, ta2) := h
          obtain ⟨product, hfind, hq, hs⟩ :=
            applySellItem_ok_char bid db tp ta i s hstep
          subst hs
          have hpm : product ∈ db.products := List.mem_of_find?_eq_some hfind
          have hidsA : (((db.products.map
              (setQty product.id (product.quantity - i.quantity))).map
                (fun p => p.id)).Nodup) := by
            rw [ids_map_setQty]; exact hids
          obtain ⟨hprod, hitems, hsb, hbb, hbi, hex, hnp, hnb, hns, htp, hta⟩ :=
            ih _ _ _ _ _ _ hidsA h'
          dsimp only at hprod hitems hsb hbb hbi hex hnp hnb hns htp hta
          have hmkr : rest.map (mkSellItem (db.products.map
              (setQty product.id (product.quantity - i.quantity))) bid) =
              rest.map (mkSellItem db.products bid) :=
            List.map_congr_left (fun j _ => mkSellItem_map_setQty _ _ _ _ _)
          have hlpr : rest.map (lineProfit (db.products.map
              (setQty product.id (product.quantity - i.quantity)))) =
              rest.map (lineProfit db.products) :=
            List.map_congr_left (fun j _ => lineProfit_map_setQty _ _ _ _)
          have hmki : mkSellItem db.products bid i =
              ⟨bid, product.id, product.uniqueId, round2 i.sellingPrice,
               i.quantity, round2 (i.sellingPrice - product.averageBuyPrice),
               round2 ((i.sellingPrice - product.averageBuyPrice) *
                 (i.quantity : ℚ))⟩ := by
            simp [mkSellItem, hfind]
          refine ⟨?_, ?_, hsb, hbb, hbi, hex, hnp, hnb, hns, ?_, ?_⟩
          · rw [hprod, hmkr, List.map_map]
            apply List.map_congr_left
            intro p hp
            show (fun p => ({ p with quantity := (p.quantity -
                qtySold (rest.map (mkSellItem db.products bid)) p.id) } :
                  Product)) (setQty product.id (product.quantity - i.quantity) p) = _
            unfold setQty
            by_cases hpid : p.id = product.id
            · rw [if_pos hpid]
              have hpp : p = product :=
                List.inj_on_of_nodup_map hids hp hpm hpid
              subst hpp
              simp only [List.map_cons, qtySold_cons, hmki, if_true]
              have : p.quantity - i.quantity -
                  qtySold (rest.map (mkSellItem db.products bid)) p.id =
                  p.quantity - (i.quantity +
                    qtySold (rest.map (mkSellItem db.products bid)) p.id) := by
                omega
              rw [this]
            · rw [if_neg hpid]
              simp only [List.map_cons, qtySold_cons, hmki]
              rw [if_neg (fun hh => hpid hh.symm), zero_add]
          · rw [hitems, hmkr, List.map_cons]
            simp [List.append_assoc]
          · rw [htp, hlpr, List.map_cons, List.sum_cons]
            ring
          · rw [hta, List.map_cons, List.sum_cons]
            ring

theorem sellBill0_id (db : DB) (req : CreateSellBillRequest) :
    (sellBill0 db req).id = db.nextSellBillId := rfl

theorem sellDb1_products (db : DB) (req : CreateSellBillRequest) :
    (sellDb1 db req).products = db.products := rfl

theorem sellDb1_sellBillItems (db : DB) (req : CreateSellBillRequest) :
    (sellDb1 db req).sellBillItems = db.sellBillItems := rfl

theorem sellDb1_sellBills (db : DB) (req : CreateSellBillRequest) :
    (sellDb1 db req).sellBills = db.sellBills ++ [sellBill0 db req] := rfl

theorem sellDb1_buyBills (db : DB) (req : CreateSellBillRequest) :
    (sellDb1 db req).buyBills = db.buyBills := rfl

theorem sellDb1_buyBillItems (db : DB) (req : CreateSellBillRequest) :
    (sellDb1 db req).buyBillItems = db.buyBillItems := rfl

theorem sellDb1_expenses (db : DB) (req : CreateSellBillRequest) :
    (sellDb1 db req).expenses = db.expenses := rfl

theorem sellDb1_nextProductId (db : DB) (req : CreateSellBillRequest) :
    (sellDb1 db req).nextProductId = db.nextProductId := rfl

theorem sellDb1_nextBuyBillId (db : DB) (req : CreateSellBillRequest) :
    (sellDb1 db req).nextBuyBillId = db.nextBuyBillId := rfl

theorem sellDb1_nextSellBillId (db : DB) (req : CreateSellBillRequest) :
    (sellDb1 db req).nextSellBillId = db.nextSellBillId + 1 := rfl

/-- Mapping a replace-by-id over bills none of which carry the id is the
identity. -/
theorem map_if_id_eq {x : SellBill} {n : Nat} (l : List SellBill)
    (hl : ∀ b ∈ l, ¬ b.id = n) :
    l.map (fun b => if b.id = n then x else b) = l := by
  have h : ∀ b ∈ l, (if b.id = n then x else b) = b :=
    fun b hb => if_neg (hl b hb)
  rw [List.map_congr_left h]
  exact List.map_id _

/-- Lift of `sellFold_ok_char` to `createSellBill` itself: on success the
returned bill takes the next serial id and the rounded accumulated
totals, the bill header and the `mkSellItem` rows are appended, the
products lose exactly the sold quantities (keeping id, unique id, name
and average price), and nothing else moves. -/
theorem createSellBill_ok_char (db : DB) (req : CreateSellBillRequest)
    (db' : DB) (bill : SellBill)
    (hids : (db.products.map (fun p => p.id)).Nodup)
    (hbills : ∀ b ∈ db.sellBills, ¬ b.id = db.nextSellBillId)
    (h : createSellBill db req = .ok (db', bill)) :
    bill.id = db.nextSellBillId ∧
    db'.products = db.products.map (fun p =>
      { p with quantity := (p.quantity -
          qtySold (req.items.map (mkSellItem db.products bill.id)) p.id) }) ∧
    db'.sellBillItems =
      db.sellBillItems ++ req.items.map (mkSellItem db.products bill.id) ∧
    db'.sellBills = db.sellBills ++ [bill] ∧
    db'.buyBills = db.buyBills ∧
    db'.buyBillItems = db.buyBillItems ∧
    db'.expenses = db.expenses ∧
    db'.nextProductId = db.nextProductId ∧
    db'.nextBuyBillId = db.nextBuyBillId ∧
    db'.nextSellBillId = db.nextSellBillId + 1 ∧
    bill.totalProfit = round2 ((req.items.map (lineProfit db.products)).sum) ∧
    bill.totalAmount =
      round2 ((req.items.map (fun i => i.sellingPrice * (i.quantity : ℚ))).sum) := by
  unfold createSellBill at h
  cases hfold : req.items.foldlM (applySellItem (sellBill0 db req).id)
      (sellDb1 db req, 0, 0) with
  | error e =>
      rw [hfold] at h
      exact absurd h (by simp)
  | ok res =>
      obtain ⟨db2, tpf, taf⟩ := res
      rw [hfold] at h
      dsimp only at h
      obtain ⟨hprod, hitems, hsb, hbb, hbi, hex, hnp, hnb, hns, htp, hta⟩ :=
        sellFold_ok_char (sellBill0 db req).id req.items _ 0 0 db2 tpf taf
          (by exact hids) hfold
      simp only [sellDb1_products, sellDb1_sellBillItems, sellDb1_sellBills,
        sellDb1_buyBills, sellDb1_buyBillItems, sellDb1_expenses,
        sellDb1_nextProductId, sellDb1_nextBuyBillId, sellDb1_nextSellBillId,
        sellBill0_id] at hprod hitems hsb hbb hbi hex hnp hnb hns htp hta
      have hinj := (Except.ok.injEq _ _).mp h
      injection hinj with hdb hbill
      subst hdb
      subst hbill
      refine ⟨rfl, ?_, ?_, ?_, hbb, hbi, hex, hnp, hnb, hns,
        by rw [htp, zero_add], by rw [hta, zero_add]⟩
      · simpa using hprod
      · simpa using hitems
      · rw [hsb, List.map_append, map_if_id_eq db.sellBills
          (fun b hb => by rw [sellBill0_id]; exact hbills b hb)]
        simp

/-- The reversal loop of `deleteSellBill` only touches products, adding
each processed item's quantity back to the row(s) carrying its product
reference. -/
theorem restoreFold_char (L : List SellBillItem) :
    ∀ (db : DB),
    (L.foldl (fun (db : DB) (item : SellBillItem) =>
      { db with products := db.products.map (fun p =>
          if p.id = item.productRef then
            { p with quantity := p.quantity + item.quantity }
          else p) }) db) =
    { db with products := db.products.map (fun p =>
        { p with quantity := (p.quantity + qtySold L p.id) }) } := by
  induction L with
  | nil =>
      intro db
      rw [List.foldl_nil]
      have h : ∀ p ∈ db.products,
          p = ({ p with quantity := (p.quantity + qtySold [] p.id) } : Product) := by
        intro p _
        rw [qtySold_nil, add_zero]
      rw [show db.products.map (fun p =>
          ({ p with quantity := (p.quantity + qtySold [] p.id) } : Product)) =
            db.products from (List.map_congr_left h).symm.trans (List.map_id _)]
  | cons it L ih =>
      intro db
      rw [List.foldl_cons, ih]
      dsimp only
      congr 1
      rw [List.map_map]
      apply List.map_congr_left
      intro p _
      show ({ (if p.id = it.productRef then
          ({ p with quantity := p.quantity + it.quantity } : Product) else p) with
        quantity := ((if p.id = it.productRef then
          ({ p with quantity := p.quantity + it.quantity } : Product) else p).quantity +
            qtySold L (if p.id = it.productRef then
              ({ p with quantity := p.quantity + it.quantity } : Product) else p).id) } :
            Product) = _
      by_cases hpid : p.id = it.productRef
      · rw [if_pos hpid]
        simp only [qtySold_cons]
        rw [if_pos hpid.symm]
        congr 1
        omega
      · rw [if_neg hpid]
        simp only [qtySold_cons]
        rw [if_neg (fun hh => hpid hh.symm), zero_add]

/-- Total quantity recorded for a product is non-negative when every stored
item quantity is. -/
theorem qtySold_nonneg (L : List SellBillItem) (pid : Nat)
    (h : ∀ it ∈ L, 0 ≤ it.quantity) : 0 ≤ qtySold L pid := by
  unfold qtySold
  apply List.sum_nonneg
  intro x hx
  obtain ⟨it, hit, rfl⟩ := List.mem_map.mp hx
  exact h it (List.mem_of_mem_filter hit)

/-- Characterization of `deleteSellBill` on any state: it commits
unconditionally, its only product effect is adding back each matching
item's recorded quantity (ids, unique ids, names and average prices all
kept), and it drops exactly the bill's header and item rows. -/
theorem deleteSellBill_char (db : DB) (id : Nat) :
    (deleteSellBill db id).products = db.products.map (fun p =>
      { p with quantity := (p.quantity +
          qtySold (db.sellBillItems.filter (fun i => i.billId = id)) p.id) }) ∧
    (deleteSellBill db id).sellBillItems =
      db.sellBillItems.filter (fun i => ¬ i.billId = id) ∧
    (deleteSellBill db id).sellBills =
      db.sellBills.filter (fun s => ¬ s.id = id) ∧
    (deleteSellBill db id).buyBills = db.buyBills ∧
    (deleteSellBill db id).buyBillItems = db.buyBillItems ∧
    (deleteSellBill db id).expenses = db.expenses := by
  simp only [deleteSellBill]
  rw [restoreFold_char]
  exact ⟨rfl, rfl, rfl, rfl, rfl, rfl⟩

theorem mkSellItem_billId (ps : List Product) (billId : Nat)
    (i : SellItemReq) : (mkSellItem ps billId i).billId = billId := by
  unfold mkSellItem
  cases findByUid ps i.uniqueId <;> rfl

/-- The sell loop succeeds exactly when the sequential stock-sufficiency
check `canSell` passes (which also requires every product to exist). -/
theorem sellFold_ok_iff (bid : Nat) (items : List SellItemReq) :
    ∀ (db : DB) (tp ta : ℚ),
    (∃ res, items.foldlM (applySellItem bid) (db, tp, ta) = .ok res) ↔
    canSell db.products items = true := by
  induction items with
  | nil =>
      intro db tp ta
      constructor
      · intro _
        rfl
      · intro _
        exact ⟨(db, tp, ta), by rw [List.foldlM_nil]; rfl⟩
  | cons i rest ih =>
      intro db tp ta
      rw [List.foldlM_cons]
      cases hstep : applySellItem bid (db, tp, ta) i with
      | error e =>
          constructor
          · rintro ⟨res, hres⟩
            have h' : (Except.error e : Except StorageError (DB × ℚ × ℚ)) =
                .ok res := hres
            exact absurd h' (by simp)
          · intro hcs
            exfalso
            rcases applySellItem_error_char bid db tp ta i e hstep with
              ⟨hfind, _⟩ | ⟨p, hfind, hlt, _⟩
            · simp only [canSell, hfind] at hcs
              exact Bool.noConfusion hcs
            · simp only [canSell, hfind] at hcs
              rw [if_pos hlt] at hcs
              exact Bool.noConfusion hcs
      | ok s =>
          obtain ⟨p, hfind, hq, hs⟩ := applySellItem_ok_char bid db tp ta i s hstep
          subst hs
          have hcs : canSell db.products (i :: rest) =
              canSell (db.products.map
                (setQty p.id (p.quantity - i.quantity))) rest := by
            simp only [canSell, hfind]
            rw [if_neg hq]
          rw [hcs]
          constructor
          · rintro ⟨res, hres⟩
            exact (ih _ _ _).mp ⟨res, hres⟩
          · intro hcs2
            obtain ⟨res, hres⟩ := (ih { db with
              products := db.products.map
                (setQty p.id (p.quantity - i.quantity))
              sellBillItems := db.sellBillItems ++
                [mkSellItem db.products bid i] }
              (tp + lineProfit db.products i)
              (ta + i.sellingPrice * (i.quantity : ℚ))).mpr hcs2
            exact ⟨res, hres⟩

/-- When the sell loop throws an insufficient-stock error, the error names
the name of a product of the table together with its on-hand quantity at
the moment of the failing check, which is smaller than some requested
line quantity. -/
theorem sellFold_insufficient_char (bid : Nat) (items : List SellItemReq) :
    ∀ (db : DB) (tp ta : ℚ) (name : String) (avail : Int),
    items.foldlM (applySellItem bid) (db, tp, ta) =
      .error (.insufficientStock name avail) →
    name ∈ db.products.map (fun p => p.name) ∧
    ∃ i ∈ items, avail < i.quantity := by
  induction items with
  | nil =>
      intro db tp ta name avail h
      have h' : (Except.ok (db, tp, ta) :
          Except StorageError (DB × ℚ × ℚ)) = .error _ := h
      exact absurd h' (by simp)
  | cons i rest ih =>
      intro db tp ta name avail h
      rw [List.foldlM_cons] at h
      cases hstep : applySellItem bid (db, tp, ta) i with
      | error e =>
          rw [hstep] at h
          have h' : (Except.error e : Except StorageError (DB × ℚ × ℚ)) =
              .error (.insufficientStock name avail) := h
          have he : e = .insufficientStock name avail :=
            (Except.error.injEq _ _).mp h'
          subst he
          rcases applySellItem_error_char bid db tp ta i _ hstep with
            ⟨_, hcontra⟩ | ⟨p, hfind, hlt, heq⟩
          · exact absurd hcontra (by simp)
          · injection heq with h1 h2
            subst h1
            subst h2
            exact ⟨List.mem_map.mpr
              ⟨p, List.mem_of_find?_eq_some hfind, rfl⟩,
              i, List.mem_cons_self i rest, hlt⟩
      | ok s =>
          rw [hstep] at h
          have h' : rest.foldlM (applySellItem bid) s =
              .error (.insufficientStock name avail) := h
          obtain ⟨p, hfind, hq, hs⟩ := applySellItem_ok_char bid db tp ta i s hstep
          subst hs
          obtain ⟨hname, i', hi', hlt⟩ := ih _ _ _ _ _ h'
          refine ⟨?_, i', List.mem_cons_of_mem _ hi', hlt⟩
          have hnames : (db.products.map
              (setQty p.id (p.quantity - i.quantity))).map (fun q => q.name) =
              db.products.map (fun q => q.name) := by
            rw [List.map_map]
            exact List.map_congr_left (fun q _ => setQty_name _ _ q)
          exact hnames ▸ hname

/-! ### Buy-side characterization -/

/-- The product update performed by the purchase loop (storage.ts:119-122)
and the purchase-deletion loop (storage.ts:225-228), as a pointwise
function: write absolute quantity and average into the row(s) whose id
matches. -/
def setQtyAvg (pid : Nat) (q : Int) (a : ℚ) : Product → Product := fun p =>
  if p.id = pid then { p with quantity := q, averageBuyPrice := a } else p

/-- The quantity-level view of a product row: id, unique id, name and
quantity (everything the purchase round-trip restores exactly; the
average is subject to rounding). -/
def projQ (p : Product) : Nat × String × String × Int :=
  (p.id, p.uniqueId, p.name, p.quantity)

/-- Total quantity of the given purchase bill items referencing a product
id. -/
def qtyBought (L : List BuyBillItem) (pid : Nat) : Int :=
  ((L.filter (fun it => it.productRef = pid)).map (fun it => it.quantity)).sum

/-- The weighted average `createBuyBill` computes for a purchase item
applied to a found product (storage.ts:109-116), before rounding. -/
def buyNewAvg (p : Product) (item : BuyItemReq) : ℚ :=
  if p.quantity + item.quantity > 0 then
    (p.averageBuyPrice * (p.quantity : ℚ) + item.buyPrice * (item.quantity : ℚ)) /
      ((p.quantity + item.quantity : Int) : ℚ)
  else 0

/-- The zero-stock product `createBuyBill` inserts on first sight of a
unique id (storage.ts:95-105). -/
def freshProduct (db : DB) (item : BuyItemReq) : Product :=
  { id := db.nextProductId, name := item.name, company := item.company
    productId := item.productId, uniqueId := genUniqueId item
    quantity := 0, averageBuyPrice := 0 }

/-- Well-formedness of the products table maintained by the serial id
column and the unique-id lookup: distinct ids, distinct unique ids, all
ids below the next serial value. -/
def ProductsWF (ps : List Product) (nextId : Nat) : Prop :=
  (ps.map (fun p => p.id)).Nodup ∧ (ps.map (fun p => p.uniqueId)).Nodup ∧
  ∀ p ∈ ps, p.id < nextId

theorem setQtyAvg_id (pid : Nat) (q : Int) (a : ℚ) (p : Product) :
    (setQtyAvg pid q a p).id = p.id := by
  unfold setQtyAvg; split <;> rfl

theorem setQtyAvg_uniqueId (pid : Nat) (q : Int) (a : ℚ) (p : Product) :
    (setQtyAvg pid q a p).uniqueId = p.uniqueId := by
  unfold setQtyAvg; split <;> rfl

theorem setQtyAvg_name (pid : Nat) (q : Int) (a : ℚ) (p : Product) :
    (setQtyAvg pid q a p).name = p.name := by
  unfold setQtyAvg; split <;> rfl

theorem qtyBought_nil (pid : Nat) : qtyBought [] pid = 0 := rfl

theorem qtyBought_cons (it : BuyBillItem) (L : List BuyBillItem) (pid : Nat) :
    qtyBought (it :: L) pid =
      (if it.productRef = pid then it.quantity else 0) + qtyBought L pid := by
  unfold qtyBought
  rw [List.filter_cons]
  split
  · next h => simp only [List.map_cons, List.sum_cons]
              rw [if_pos (by simpa using h)]
  · next h => rw [if_neg (by simpa using h), zero_add]

/-- The bill-item row the purchase loop inserts (storage.ts:125-132). -/
def mkBuyItem (bid : Nat) (pid : Nat) (item : BuyItemReq) : BuyBillItem :=
  ⟨bid, pid, genUniqueId item, round2 item.buyPrice, item.quantity,
   round2 (item.buyPrice * (item.quantity : ℚ))⟩

/-- The state after one purchase-loop step on an existing product. -/
def buyDbFound (bid : Nat) (db : DB) (item : BuyItemReq) (p : Product) : DB :=
  { db with
    products := db.products.map (setQtyAvg p.id (p.quantity + item.quantity)
      (round2 (buyNewAvg p item)))
    buyBillItems := db.buyBillItems ++ [mkBuyItem bid p.id item] }

/-- The state after one purchase-loop step that creates the product. -/
def buyDbFresh (bid : Nat) (db : DB) (item : BuyItemReq) : DB :=
  { db with
    products := (db.products ++ [freshProduct db item]).map
      (setQtyAvg db.nextProductId item.quantity
        (round2 (buyNewAvg (freshProduct db item) item)))
    nextProductId := db.nextProductId + 1
    buyBillItems := db.buyBillItems ++
      [mkBuyItem bid db.nextProductId item] }

/-- Characterization of one purchase-loop step when the product exists. -/
theorem applyBuyItem_char_found (bid : Nat) (db : DB) (item : BuyItemReq)
    (p : Product)
    (hfind : findByUid db.products (genUniqueId item) = some p) :
    applyBuyItem bid db item = buyDbFound bid db item p := by
  simp only [applyBuyItem, hfind]
  rfl

/-- Characterization of one purchase-loop step when the product is created
on first sight. -/
theorem applyBuyItem_char_fresh (bid : Nat) (db : DB) (item : BuyItemReq)
    (hfind : findByUid db.products (genUniqueId item) = none) :
    applyBuyItem bid db item = buyDbFresh bid db item := by
  simp only [applyBuyItem, hfind]
  simp [buyDbFresh, mkBuyItem, freshProduct, buyNewAvg, setQtyAvg]

theorem mkBuyItem_billId (bid pid : Nat) (item : BuyItemReq) :
    (mkBuyItem bid pid item).billId = bid := rfl

theorem mkBuyItem_productRef (bid pid : Nat) (item : BuyItemReq) :
    (mkBuyItem bid pid item).productRef = pid := rfl

theorem mkBuyItem_quantity (bid pid : Nat) (item : BuyItemReq) :
    (mkBuyItem bid pid item).quantity = item.quantity := rfl

theorem ids_map_setQtyAvg (ps : List Product) (pid : Nat) (q : Int) (a : ℚ) :
    (ps.map (setQtyAvg pid q a)).map (fun p => p.id) =
      ps.map (fun p => p.id) := by
  rw [List.map_map]
  exact List.map_congr_left (fun p _ => setQtyAvg_id pid q a p)

theorem uids_map_setQtyAvg (ps : List Product) (pid : Nat) (q : Int) (a : ℚ) :
    (ps.map (setQtyAvg pid q a)).map (fun p => p.uniqueId) =
      ps.map (fun p => p.uniqueId) := by
  rw [List.map_map]
  exact List.map_congr_left (fun p _ => setQtyAvg_uniqueId pid q a p)

/-- Complete characterization of the purchase loop over a well-formed
products table: the inserted rows carry the bill id and the request
quantities; at the quantity level every original product gains exactly
the quantities bought against it, and the newly created products (tail)
hold exactly their bought quantities; well-formedness is preserved and
nothing else moves. -/
theorem buyFold_char (bid : Nat) (items : List BuyItemReq) :
    ∀ (db : DB), ProductsWF db.products db.nextProductId →
    ∃ L tail,
      (items.foldl (applyBuyItem bid) db).buyBillItems =
        db.buyBillItems ++ L ∧
      (∀ it ∈ L, it.billId = bid) ∧
      (∀ it ∈ L, ∃ i ∈ items, it.quantity = i.quantity) ∧
      (items.foldl (applyBuyItem bid) db).products.map projQ =
        db.products.map (fun p =>
          (p.id, p.uniqueId, p.name, p.quantity + qtyBought L p.id)) ++ tail ∧
      (∀ x ∈ tail, x.2.2.2 = qtyBought L x.1 ∧ db.nextProductId ≤ x.1) ∧
      ProductsWF (items.foldl (applyBuyItem bid) db).products
        (items.foldl (applyBuyItem bid) db).nextProductId ∧
      (items.foldl (applyBuyItem bid) db).sellBills = db.sellBills ∧
      (items.foldl (applyBuyItem bid) db).sellBillItems = db.sellBillItems ∧
      (items.foldl (applyBuyItem bid) db).buyBills = db.buyBills ∧
      (items.foldl (applyBuyItem bid) db).expenses = db.expenses ∧
      (items.foldl (applyBuyItem bid) db).nextBuyBillId = db.nextBuyBillId ∧
      (items.foldl (applyBuyItem bid) db).nextSellBillId = db.nextSellBillId := by
  induction items with
  | nil =>
      intro db hwf
      refine ⟨[], [], by simp, by simp, by simp, ?_, by simp, hwf,
        rfl, rfl, rfl, rfl, rfl, rfl⟩
      rw [List.foldl_nil, List.append_nil]
      apply List.map_congr_left
      intro p _
      simp [projQ, qtyBought]
  | cons item rest ih =>
      intro db hwf
      obtain ⟨hids, huids, hlt⟩ := hwf
      rw [List.foldl_cons]
      cases hfind : findByUid db.products (genUniqueId item) with
      | some p =>
          have hpm : p ∈ db.products := List.mem_of_find?_eq_some hfind
          rw [applyBuyItem_char_found bid db item p hfind]
          have hwfA : ProductsWF (buyDbFound bid db item p).products
              (buyDbFound bid db item p).nextProductId := by
            unfold ProductsWF
            simp only [buyDbFound]
            refine ⟨?_, ?_, ?_⟩
            · rw [ids_map_setQtyAvg]
              exact hids
            · rw [uids_map_setQtyAvg]
              exact huids
            · intro q hq
              obtain ⟨q0, hq0, rfl⟩ := List.mem_map.mp hq
              rw [setQtyAvg_id]
              exact hlt q0 hq0
          obtain ⟨L', tail', hitems, hbids, hqrel, hproj, htail, hwfF,
            hsb, hsi, hbb, hex, hnb, hns⟩ := ih (buyDbFound bid db item p) hwfA
          refine ⟨mkBuyItem bid p.id item :: L', tail', ?_, ?_, ?_, ?_, ?_,
            hwfF, hsb, hsi, hbb, hex, hnb, hns⟩
          · rw [hitems]
            show (db.buyBillItems ++ [mkBuyItem bid p.id item]) ++ L' = _
            simp [List.append_assoc]
          · intro it hit
            rcases List.mem_cons.mp hit with rfl | hit'
            · rfl
            · exact hbids it hit'
          · intro it hit
            rcases List.mem_cons.mp hit with rfl | hit'
            · exact ⟨item, List.mem_cons_self _ _, rfl⟩
            · obtain ⟨i, hi, hiq⟩ := hqrel it hit'
              exact ⟨i, List.mem_cons_of_mem _ hi, hiq⟩
          · rw [hproj]
            have hcomp : (buyDbFound bid db item p).products.map (fun q =>
                (q.id, q.uniqueId, q.name,
                  q.quantity + qtyBought L' q.id)) =
                db.products.map (fun q => (q.id, q.uniqueId, q.name,
                  q.quantity +
                    qtyBought (mkBuyItem bid p.id item :: L') q.id)) := by
              simp only [buyDbFound]
              rw [List.map_map]
              apply List.map_congr_left
              intro q hq
              show ((setQtyAvg p.id (p.quantity + item.quantity)
                  (round2 (buyNewAvg p item)) q).id,
                (setQtyAvg p.id (p.quantity + item.quantity)
                  (round2 (buyNewAvg p item)) q).uniqueId,
                (setQtyAvg p.id (p.quantity + item.quantity)
                  (round2 (buyNewAvg p item)) q).name,
                (setQtyAvg p.id (p.quantity + item.quantity)
                  (round2 (buyNewAvg p item)) q).quantity +
                  qtyBought L' (setQtyAvg p.id (p.quantity + item.quantity)
                    (round2 (buyNewAvg p item)) q).id) = _
              rw [setQtyAvg_id, setQtyAvg_uniqueId, setQtyAvg_name]
              unfold setQtyAvg
              by_cases hqid : q.id = p.id
              · rw [if_pos hqid]
                have hqp : q = p := List.inj_on_of_nodup_map hids hq hpm hqid
                subst hqp
                have h4 : (({ q with
                    quantity := q.quantity + item.quantity } : Product)).quantity
                    + qtyBought L' q.id =
                    q.quantity +
                      qtyBought (mkBuyItem bid q.id item :: L') q.id := by
                  show q.quantity + item.quantity + qtyBought L' q.id = _
                  rw [qtyBought_cons, mkBuyItem_productRef, mkBuyItem_quantity,
                    if_pos rfl]
                  omega
                exact congrArg (fun z => (q.id, q.uniqueId, q.name, z)) h4
              · rw [if_neg hqid]
                have h4 : q.quantity + qtyBought L' q.id =
                    q.quantity +
                      qtyBought (mkBuyItem bid p.id item :: L') q.id := by
                  rw [qtyBought_cons, mkBuyItem_productRef,
                    if_neg (fun hh => hqid hh.symm), zero_add]
                exact congrArg (fun z => (q.id, q.uniqueId, q.name, z)) h4
            rw [hcomp]
          · intro x hx
            obtain ⟨hxq, hxb⟩ := htail x hx
            have hxb2 : db.nextProductId ≤ x.1 := hxb
            have hrefne : ¬ (mkBuyItem bid p.id item).productRef = x.1 := by
              rw [mkBuyItem_productRef]
              have hplt : p.id < db.nextProductId := hlt p hpm
              omega
            refine ⟨?_, hxb2⟩
            rw [qtyBought_cons, if_neg hrefne, zero_add]
            exact hxq
      | none =>
          rw [applyBuyItem_char_fresh bid db item hfind]
          have huid_not : ∀ q ∈ db.products,
              ¬ q.uniqueId = genUniqueId item := by
            intro q hq
            have hz := List.find?_eq_none.mp hfind q hq
            simpa using hz
          have hwfA : ProductsWF (buyDbFresh bid db item).products
              (buyDbFresh bid db item).nextProductId := by
            unfold ProductsWF
            simp only [buyDbFresh]
            refine ⟨?_, ?_, ?_⟩
            · rw [ids_map_setQtyAvg, List.map_append]
              rw [List.nodup_append]
              refine ⟨hids, List.nodup_singleton _, ?_⟩
              intro a ha hb
              simp only [List.map_cons, List.map_nil, List.mem_cons,
                List.not_mem_nil, or_false] at hb
              obtain ⟨q, hq, rfl⟩ := List.mem_map.mp ha
              have hql := hlt q hq
              simp only [freshProduct] at hb
              omega
            · rw [uids_map_setQtyAvg, List.map_append]
              rw [List.nodup_append]
              refine ⟨huids, List.nodup_singleton _, ?_⟩
              intro a ha hb
              simp only [List.map_cons, List.map_nil, List.mem_cons,
                List.not_mem_nil, or_false] at hb
              obtain ⟨q, hq, rfl⟩ := List.mem_map.mp ha
              have hfp : (freshProduct db item).uniqueId = genUniqueId item :=
                rfl
              rw [hfp] at hb
              exact huid_not q hq hb
            · intro q hq
              obtain ⟨q0, hq0, rfl⟩ := List.mem_map.mp hq
              rw [setQtyAvg_id]
              show q0.id < db.nextProductId + 1
              rcases List.mem_append.mp hq0 with hq1 | hq1
              · have := hlt q0 hq1
                omega
              · simp only [List.mem_singleton] at hq1
                subst hq1
                show (freshProduct db item).id < db.nextProductId + 1
                simp [freshProduct]
          obtain ⟨L', tail', hitems, hbids, hqrel, hproj, htail, hwfF,
            hsb, hsi, hbb, hex, hnb, hns⟩ := ih (buyDbFresh bid db item) hwfA
          refine ⟨mkBuyItem bid db.nextProductId item :: L',
            (db.nextProductId, genUniqueId item, item.name,
              item.quantity + qtyBought L' db.nextProductId) :: tail',
            ?_, ?_, ?_, ?_, ?_, hwfF, hsb, hsi, hbb, hex, hnb, hns⟩
          · rw [hitems]
            show (db.buyBillItems ++ [mkBuyItem bid db.nextProductId item])
              ++ L' = _
            simp [List.append_assoc]
          · intro it hit
            rcases List.mem_cons.mp hit with rfl | hit'
            · rfl
            · exact hbids it hit'
          · intro it hit
            rcases List.mem_cons.mp hit with rfl | hit'
            · exact ⟨item, List.mem_cons_self _ _, rfl⟩
            · obtain ⟨i, hi, hiq⟩ := hqrel it hit'
              exact ⟨i, List.mem_cons_of_mem _ hi, hiq⟩
          · rw [hproj]
            have hsplit : (buyDbFresh bid db item).products.map (fun q =>
                (q.id, q.uniqueId, q.name, q.quantity + qtyBought L' q.id)) =
                db.products.map (fun q => (q.id, q.uniqueId, q.name,
                  q.quantity +
                    qtyBought (mkBuyItem bid db.nextProductId item :: L')
                      q.id)) ++
                [(db.nextProductId, genUniqueId item, item.name,
                  item.quantity + qtyBought L' db.nextProductId)] := by
              simp only [buyDbFresh]
              rw [List.map_map, List.map_append]
              congr 1
              · apply List.map_congr_left
                intro q hq
                show ((setQtyAvg db.nextProductId item.quantity
                    (round2 (buyNewAvg (freshProduct db item) item)) q).id,
                  (setQtyAvg db.nextProductId item.quantity
                    (round2 (buyNewAvg (freshProduct db item) item)) q).uniqueId,
                  (setQtyAvg db.nextProductId item.quantity
                    (round2 (buyNewAvg (freshProduct db item) item)) q).name,
                  (setQtyAvg db.nextProductId item.quantity
                    (round2 (buyNewAvg (freshProduct db item) item)) q).quantity
                    + qtyBought L' (setQtyAvg db.nextProductId item.quantity
                      (round2 (buyNewAvg (freshProduct db item) item)) q).id) = _
                rw [setQtyAvg_id, setQtyAvg_uniqueId, setQtyAvg_name]
                unfold setQtyAvg
                have hqid : ¬ q.id = db.nextProductId := by
                  have := hlt q hq
                  omega
                rw [if_neg hqid]
                have h4 : q.quantity + qtyBought L' q.id =
                    q.quantity +
                      qtyBought (mkBuyItem bid db.nextProductId item :: L')
                        q.id := by
                  rw [qtyBought_cons, mkBuyItem_productRef,
                    if_neg (fun hh => hqid hh.symm), zero_add]
                exact congrArg (fun z => (q.id, q.uniqueId, q.name, z)) h4
              · simp [setQtyAvg, freshProduct]
            rw [hsplit, List.append_assoc]
            rfl
          · intro x hx
            rcases List.mem_cons.mp hx with rfl | hx'
            · refine ⟨?_, Nat.le_refl _⟩
              show item.quantity + qtyBought L' db.nextProductId =
                qtyBought (mkBuyItem bid db.nextProductId item :: L')
                  db.nextProductId
              rw [qtyBought_cons, mkBuyItem_productRef, mkBuyItem_quantity,
                if_pos rfl]
            · obtain ⟨hxq, hxb⟩ := htail x hx'
              have hxb2 : db.nextProductId + 1 ≤ x.1 := hxb
              refine ⟨?_, by omega⟩
              rw [qtyBought_cons, mkBuyItem_productRef,
                if_neg (by omega), zero_add]
              exact hxq

/-- The reversed average `deleteBuyBill` computes for an item applied to a
found product (storage.ts:216-223), before rounding. -/
def delNewAvg (p : Product) (item : BuyBillItem) : ℚ :=
  if p.quantity - item.quantity > 0 then
    (p.averageBuyPrice * (p.quantity : ℚ) - item.totalCost) /
      ((p.quantity - item.quantity : Int) : ℚ)
  else 0

/-- The state after one purchase-deletion step on a found product. -/
def delDbFound (db : DB) (item : BuyBillItem) (p : Product) : DB :=
  { db with products := (db.products.map
      (setQtyAvg p.id (p.quantity - item.quantity)
        (round2 (delNewAvg p item)))) }

theorem deleteBuyItemStep_none (db : DB) (item : BuyBillItem)
    (hfind : findById db.products item.productRef = none) :
    deleteBuyItemStep db item = .ok db := by
  simp only [deleteBuyItemStep, hfind]

theorem deleteBuyItemStep_found (db : DB) (item : BuyBillItem) (p : Product)
    (hfind : findById db.products item.productRef = some p)
    (hge : ¬ p.quantity - item.quantity < 0) :
    deleteBuyItemStep db item = .ok (delDbFound db item p) := by
  simp only [deleteBuyItemStep, hfind, if_neg hge]
  simp [delDbFound, delNewAvg, setQtyAvg]

theorem deleteBuyItemStep_err (db : DB) (item : BuyBillItem) (p : Product)
    (hfind : findById db.products item.productRef = some p)
    (hlt : p.quantity - item.quantity < 0) :
    deleteBuyItemStep db item = .error (.negativeStockOnDelete p.name) := by
  simp only [deleteBuyItemStep, hfind, if_pos hlt]

theorem qtyBought_nonneg (L : List BuyBillItem) (pid : Nat)
    (h : ∀ it ∈ L, 0 ≤ it.quantity) : 0 ≤ qtyBought L pid := by
  unfold qtyBought
  apply List.sum_nonneg
  intro x hx
  obtain ⟨it, hit, rfl⟩ := List.mem_map.mp hx
  exact h it (List.mem_of_mem_filter hit)

/-- The purchase-deletion loop succeeds whenever no product would be driven
below the total quantity its matching items remove, and then subtracts
exactly those totals at the quantity level, touching nothing else. -/
theorem deleteBuyFold_char (L : List BuyBillItem) :
    ∀ (db : DB),
    (db.products.map (fun p => p.id)).Nodup →
    (∀ it ∈ L, 0 ≤ it.quantity) →
    (∀ p ∈ db.products, qtyBought L p.id ≤ p.quantity) →
    ∃ dbF, L.foldlM deleteBuyItemStep db = .ok dbF ∧
      dbF.products.map projQ = db.products.map (fun p =>
        (p.id, p.uniqueId, p.name, p.quantity - qtyBought L p.id)) ∧
      dbF.buyBillItems = db.buyBillItems ∧
      dbF.buyBills = db.buyBills ∧
      dbF.sellBills = db.sellBills ∧
      dbF.sellBillItems = db.sellBillItems ∧
      dbF.expenses = db.expenses ∧
      dbF.nextProductId = db.nextProductId ∧
      dbF.nextBuyBillId = db.nextBuyBillId ∧
      dbF.nextSellBillId = db.nextSellBillId := by
  induction L with
  | nil =>
      intro db _ _ _
      refine ⟨db, by rw [List.foldlM_nil]; rfl, ?_, rfl, rfl, rfl, rfl, rfl,
        rfl, rfl, rfl⟩
      apply List.map_congr_left
      intro p _
      simp [projQ, qtyBought]
  | cons it L' ih =>
      intro db hids hq hinv
      rw [List.foldlM_cons]
      cases hfind : findById db.products it.productRef with
      | none =>
          rw [deleteBuyItemStep_none db it hfind]
          have hnone : ∀ p ∈ db.products, ¬ it.productRef = p.id := by
            intro p hp hh
            have hz := List.find?_eq_none.mp hfind p hp
            simp only [decide_eq_true_eq] at hz
            exact hz hh.symm
          have hinv' : ∀ p ∈ db.products, qtyBought L' p.id ≤ p.quantity := by
            intro p hp
            have := hinv p hp
            rw [qtyBought_cons, if_neg (hnone p hp), zero_add] at this
            exact this
          obtain ⟨dbF, hfold, hproj, h3, h4, h5, h6, h7, h8, h9, h10⟩ :=
            ih db hids (fun x hx => hq x (List.mem_cons_of_mem _ hx)) hinv'
          refine ⟨dbF, hfold, ?_, h3, h4, h5, h6, h7, h8, h9, h10⟩
          rw [hproj]
          apply List.map_congr_left
          intro p hp
          rw [qtyBought_cons, if_neg (hnone p hp), zero_add]
      | some p =>
          have hpm : p ∈ db.products := List.mem_of_find?_eq_some hfind
          have hpid : p.id = it.productRef := by
            simpa using List.find?_some hfind
          have hcons : qtyBought (it :: L') p.id =
              it.quantity + qtyBought L' p.id := by
            rw [qtyBought_cons, if_pos hpid.symm]
          have hple := hinv p hpm
          rw [hcons] at hple
          have hnnL' : 0 ≤ qtyBought L' p.id :=
            qtyBought_nonneg L' p.id
              (fun x hx => hq x (List.mem_cons_of_mem _ hx))
          have hge : ¬ p.quantity - it.quantity < 0 := by omega
          rw [deleteBuyItemStep_found db it p hfind hge]
          have hidsA : ((delDbFound db it p).products.map
              (fun q => q.id)).Nodup := by
            simp only [delDbFound]
            rw [ids_map_setQtyAvg]
            exact hids
          have hinvA : ∀ q ∈ (delDbFound db it p).products,
              qtyBought L' q.id ≤ q.quantity := by
            intro q hq2
            simp only [delDbFound] at hq2
            obtain ⟨q0, hq0, rfl⟩ := List.mem_map.mp hq2
            rw [setQtyAvg_id]
            unfold setQtyAvg
            by_cases hq0id : q0.id = p.id
            · rw [if_pos hq0id]
              have hq0p : q0 = p := List.inj_on_of_nodup_map hids hq0 hpm hq0id
              subst hq0p
              show qtyBought L' q0.id ≤ q0.quantity - it.quantity
              omega
            · rw [if_neg hq0id]
              have := hinv q0 hq0
              rw [qtyBought_cons,
                if_neg (fun hh => hq0id (hpid ▸ hh).symm), zero_add] at this
              exact this
          obtain ⟨dbF, hfold, hproj, h3, h4, h5, h6, h7, h8, h9, h10⟩ :=
            ih (delDbFound db it p) hidsA
              (fun x hx => hq x (List.mem_cons_of_mem _ hx)) hinvA
          refine ⟨dbF, hfold, ?_, h3, h4, h5, h6, h7, h8, h9, h10⟩
          rw [hproj]
          simp only [delDbFound]
          rw [List.map_map]
          apply List.map_congr_left
          intro q hq2
          show ((setQtyAvg p.id (p.quantity - it.quantity)
              (round2 (delNewAvg p it)) q).id,
            (setQtyAvg p.id (p.quantity - it.quantity)
              (round2 (delNewAvg p it)) q).uniqueId,
            (setQtyAvg p.id (p.quantity - it.quantity)
              (round2 (delNewAvg p it)) q).name,
            (setQtyAvg p.id (p.quantity - it.quantity)
              (round2 (delNewAvg p it)) q).quantity -
              qtyBought L' (setQtyAvg p.id (p.quantity - it.quantity)
                (round2 (delNewAvg p it)) q).id) = _
          rw [setQtyAvg_id, setQtyAvg_uniqueId, setQtyAvg_name]
          unfold setQtyAvg
          by_cases hqid : q.id = p.id
          · rw [if_pos hqid]
            have hqp : q = p := List.inj_on_of_nodup_map hids hq2 hpm hqid
            subst hqp
            have h4 : (({ q with
                quantity := q.quantity - it.quantity } : Product)).quantity -
                qtyBought L' q.id =
                q.quantity - qtyBought (it :: L') q.id := by
              show q.quantity - it.quantity - qtyBought L' q.id = _
              rw [qtyBought_cons, if_pos hpid.symm]
              omega
            exact congrArg (fun z => (q.id, q.uniqueId, q.name, z)) h4
          · rw [if_neg hqid]
            have h4 : q.quantity - qtyBought L' q.id =
                q.quantity - qtyBought (it :: L') q.id := by
              rw [qtyBought_cons,
                if_neg (fun hh => hqid (hpid ▸ hh).symm), zero_add]
            exact congrArg (fun z => (q.id, q.uniqueId, q.name, z)) h4

/-- Conversely, when the purchase-deletion loop succeeds (with non-negative
stock and recorded quantities), no product's stock was below the total
quantity removed from it. -/
theorem deleteBuyFold_ok_bound (L : List BuyBillItem) :
    ∀ (db dbF : DB),
    (db.products.map (fun p => p.id)).Nodup →
    (∀ it ∈ L, 0 ≤ it.quantity) →
    (∀ p ∈ db.products, 0 ≤ p.quantity) →
    L.foldlM deleteBuyItemStep db = .ok dbF →
    ∀ p ∈ db.products, qtyBought L p.id ≤ p.quantity := by
  induction L with
  | nil =>
      intro db dbF _ _ hq0 _ p hp
      rw [qtyBought_nil]
      exact hq0 p hp
  | cons it L' ih =>
      intro db dbF hids hq hq0 h p hp
      rw [List.foldlM_cons] at h
      cases hfind : findById db.products it.productRef with
      | none =>
          rw [deleteBuyItemStep_none db it hfind] at h
          have h' : L'.foldlM deleteBuyItemStep db = .ok dbF := h
          have hnone : ¬ it.productRef = p.id := by
            intro hh
            have hz := List.find?_eq_none.mp hfind p hp
            simp only [decide_eq_true_eq] at hz
            exact hz hh.symm
          rw [qtyBought_cons, if_neg hnone, zero_add]
          exact ih db dbF hids (fun x hx => hq x (List.mem_cons_of_mem _ hx))
            hq0 h' p hp
      | some pf =>
          have hpfm : pf ∈ db.products := List.mem_of_find?_eq_some hfind
          have hpfid : pf.id = it.productRef := by
            simpa using List.find?_some hfind
          by_cases hlt : pf.quantity - it.quantity < 0
          · rw [deleteBuyItemStep_err db it pf hfind hlt] at h
            have h' : (Except.error (StorageError.negativeStockOnDelete
                pf.name) : Except StorageError DB) = .ok dbF := h
            exact absurd h' (by simp)
          · rw [deleteBuyItemStep_found db it pf hfind hlt] at h
            have h' : L'.foldlM deleteBuyItemStep (delDbFound db it pf) =
                .ok dbF := h
            have hidsA : ((delDbFound db it pf).products.map
                (fun q => q.id)).Nodup := by
              simp only [delDbFound]
              rw [ids_map_setQtyAvg]
              exact hids
            have hqA0 : ∀ q ∈ (delDbFound db it pf).products,
                0 ≤ q.quantity := by
              intro q hq2
              simp only [delDbFound] at hq2
              obtain ⟨q0, hq0m, rfl⟩ := List.mem_map.mp hq2
              unfold setQtyAvg
              by_cases hq0id : q0.id = pf.id
              · rw [if_pos hq0id]
                show (0 : Int) ≤ pf.quantity - it.quantity
                omega
              · rw [if_neg hq0id]
                exact hq0 q0 hq0m
            have hbound := ih (delDbFound db it pf) dbF hidsA
              (fun x hx => hq x (List.mem_cons_of_mem _ hx)) hqA0 h'
            by_cases hppf : p.id = pf.id
            · have hppf2 : p = pf := List.inj_on_of_nodup_map hids hp hpfm hppf
              subst hppf2
              have hmem : setQtyAvg p.id (p.quantity - it.quantity)
                  (round2 (delNewAvg p it)) p ∈
                  (delDbFound db it p).products := by
                simp only [delDbFound]
                exact List.mem_map_of_mem _ hp
              have hb := hbound _ hmem
              rw [setQtyAvg_id] at hb
              have helt : (setQtyAvg p.id (p.quantity - it.quantity)
                  (round2 (delNewAvg p it)) p).quantity =
                  p.quantity - it.quantity := by
                unfold setQtyAvg
                rw [if_pos rfl]
              rw [helt] at hb
              rw [qtyBought_cons, if_pos hpfid.symm]
              omega
            · have hmem : setQtyAvg pf.id (pf.quantity - it.quantity)
                  (round2 (delNewAvg pf it)) p ∈
                  (delDbFound db it pf).products := by
                simp only [delDbFound]
                exact List.mem_map_of_mem _ hp
              have hb := hbound _ hmem
              rw [setQtyAvg_id] at hb
              have helt : (setQtyAvg pf.id (pf.quantity - it.quantity)
                  (round2 (delNewAvg pf it)) p).quantity = p.quantity := by
                unfold setQtyAvg
                rw [if_neg hppf]
              rw [helt] at hb
              have hrefne : ¬ it.productRef = p.id := by
                intro hh
                exact hppf (by rw [← hpfid] at hh; exact hh.symm)
              rw [qtyBought_cons, if_neg hrefne, zero_add]
              exact hb

/-- The purchase bill header `createBuyBill` inserts (storage.ts:71-81). -/
def buyBillHeader (db : DB) (req : CreateBuyBillRequest) : BuyBill :=
  { id := db.nextBuyBillId, dealerName := req.dealerName
    dealerGSTNumber := req.dealerGSTNumber
    gstPercentage := req.gstPercentage
    gstAmount := req.gstPercentage.map (fun g =>
      round2 ((req.items.map (fun i => i.buyPrice * (i.quantity : ℚ))).sum *
        g / 100))
    billDate := req.billDate
    totalAmount :=
      round2 ((req.items.map (fun i => i.buyPrice * (i.quantity : ℚ))).sum) }

/-- The state after `createBuyBill` has inserted its header. -/
def buyDb1 (db : DB) (req : CreateBuyBillRequest) : DB :=
  { db with buyBills := db.buyBills ++ [buyBillHeader db req]
            nextBuyBillId := db.nextBuyBillId + 1 }

theorem buyBillHeader_id (db : DB) (req : CreateBuyBillRequest) :
    (buyBillHeader db req).id = db.nextBuyBillId := rfl

theorem buyDb1_products (db : DB) (req : CreateBuyBillRequest) :
    (buyDb1 db req).products = db.products := rfl

theorem buyDb1_buyBillItems (db : DB) (req : CreateBuyBillRequest) :
    (buyDb1 db req).buyBillItems = db.buyBillItems := rfl

theorem buyDb1_buyBills (db : DB) (req : CreateBuyBillRequest) :
    (buyDb1 db req).buyBills = db.buyBills ++ [buyBillHeader db req] := rfl

theorem buyDb1_nextProductId (db : DB) (req : CreateBuyBillRequest) :
    (buyDb1 db req).nextProductId = db.nextProductId := rfl

/-- `createBuyBill` is the purchase-loop fold applied after inserting the
header. -/
theorem createBuyBill_eq (db : DB) (req : CreateBuyBillRequest) :
    createBuyBill db req =
      (req.items.foldl (applyBuyItem db.nextBuyBillId) (buyDb1 db req),
       buyBillHeader db req) := rfl

/-- `deleteBuyBill` is the deletion fold over the bill's item rows followed
by dropping those rows and the header. -/
theorem deleteBuyBill_eq (db : DB) (id : Nat) :
    deleteBuyBill db id =
      match (db.buyBillItems.filter (fun i => i.billId = id)).foldlM
          deleteBuyItemStep db with
      | .error e => .error e
      | .ok db1 => .ok { db1 with
          buyBillItems := db1.buyBillItems.filter (fun i => ¬ i.billId = id)
          buyBills := db1.buyBills.filter (fun b => ¬ b.id = id) } := rfl

/-- In a table with distinct ids, lookup by a member's id returns it. -/
theorem findById_of_mem (ps : List Product)
    (hids : (ps.map (fun p => p.id)).Nodup) (p : Product) (hp : p ∈ ps) :
    findById ps p.id = some p := by
  induction ps with
  | nil => cases hp
  | cons a rest ih =>
      rcases List.mem_cons.mp hp with rfl | hp'
      · unfold findById
        rw [List.find?_cons_of_pos]
        simp
      · have hidsrest : (rest.map (fun q => q.id)).Nodup :=
          (List.nodup_cons.mp (by simpa using hids)).2
      
        have hane : ¬ a.id = p.id := by
          intro hh
          have hmem : p.id ∈ rest.map (fun q => q.id) :=
            List.mem_map_of_mem _ hp'
          rw [← hh] at hmem
          exact (List.nodup_cons.mp (by simpa using hids)).1 hmem
        unfold findById
        rw [List.find?_cons_of_neg _ (by simpa using hane)]
        exact ih hidsrest hp'

/-- Lookup by id commutes with any id-preserving update. -/
theorem findById_map_pres (ps : List Product) (i : Nat)
    (f : Product → Product) (hf : ∀ p, (f p).id = p.id) :
    findById (ps.map f) i = (findById ps i).map f := by
  unfold findById
  apply find?_map_pres
  intro x
  rw [hf]

/-- Quantity-level round trip: creating then deleting a purchase bill
restores every pre-existing product's id, unique id, name and quantity
exactly (in place), leaves the bill's newly created products at quantity
zero, and restores the bill tables. -/
theorem buyRoundtrip_main (db : DB) (req : CreateBuyBillRequest)
    (hwf : ProductsWF db.products db.nextProductId)
    (hq0 : ∀ p ∈ db.products, 0 ≤ p.quantity)
    (hqi : ∀ i ∈ req.items, 0 ≤ i.quantity)
    (hfresh : ∀ it ∈ db.buyBillItems, ¬ it.billId = db.nextBuyBillId)
    (hbills : ∀ b ∈ db.buyBills, ¬ b.id = db.nextBuyBillId) :
    ∃ dbDel tail0,
      deleteBuyBill (createBuyBill db req).1 (createBuyBill db req).2.id =
        .ok dbDel ∧
      dbDel.products.map projQ = db.products.map projQ ++ tail0 ∧
      (∀ x ∈ tail0, x.2.2.2 = (0 : Int)) ∧
      dbDel.buyBills = db.buyBills ∧
      dbDel.buyBillItems = db.buyBillItems := by
  obtain ⟨hids, huids, hlt⟩ := hwf
  have hwf1 : ProductsWF (buyDb1 db req).products
      (buyDb1 db req).nextProductId := ⟨hids, huids, hlt⟩
  obtain ⟨L, tail, hitems, hbids, hqrel, hproj, htail, hwfF, hsb, hsi, hbb,
    hex, hnb, hns⟩ := buyFold_char db.nextBuyBillId req.items (buyDb1 db req)
      hwf1
  have hitems' : (req.items.foldl (applyBuyItem db.nextBuyBillId)
      (buyDb1 db req)).buyBillItems = db.buyBillItems ++ L := hitems
  have hproj' : (req.items.foldl (applyBuyItem db.nextBuyBillId)
      (buyDb1 db req)).products.map projQ =
      db.products.map (fun p =>
        (p.id, p.uniqueId, p.name, p.quantity + qtyBought L p.id)) ++ tail :=
    hproj
  have hbb' : (req.items.foldl (applyBuyItem db.nextBuyBillId)
      (buyDb1 db req)).buyBills = db.buyBills ++ [buyBillHeader db req] := hbb
  have hLq : ∀ it ∈ L, 0 ≤ it.quantity := by
    intro it hit
    obtain ⟨i, hi, hiq⟩ := hqrel it hit
    rw [hiq]
    exact hqi i hi
  have hinv : ∀ p ∈ (req.items.foldl (applyBuyItem db.nextBuyBillId)
      (buyDb1 db req)).products, qtyBought L p.id ≤ p.quantity := by
    intro p hp
    have hmem : projQ p ∈ (req.items.foldl (applyBuyItem db.nextBuyBillId)
        (buyDb1 db req)).products.map projQ := List.mem_map_of_mem _ hp
    rw [hproj'] at hmem
    rcases List.mem_append.mp hmem with hmem1 | hmem2
    · obtain ⟨p0, hp0, heq⟩ := List.mem_map.mp hmem1
      have h1 : p0.id = p.id := congrArg (fun x => x.1) heq
      have h4 : p0.quantity + qtyBought L p0.id = p.quantity :=
        congrArg (fun x => x.2.2.2) heq
      have h0 := hq0 p0 hp0
      rw [← h1]
      omega
    · have hx := htail _ hmem2
      have h4 : p.quantity = qtyBought L p.id := hx.1
      omega
  obtain ⟨dbF, hfold, hprojF, hFitems, hFbills, hFsb, hFsi, hFex, _, _, _⟩ :=
    deleteBuyFold_char L (req.items.foldl (applyBuyItem db.nextBuyBillId)
      (buyDb1 db req)) hwfF.1 hLq hinv
  have hLfilter : (req.items.foldl (applyBuyItem db.nextBuyBillId)
      (buyDb1 db req)).buyBillItems.filter
        (fun i => i.billId = db.nextBuyBillId) = L := by
    rw [hitems', List.filter_append]
    have h1 : db.buyBillItems.filter
        (fun i => i.billId = db.nextBuyBillId) = [] := by
      rw [List.filter_eq_nil_iff]
      intro it hit
      simpa using hfresh it hit
    have h2 : L.filter (fun i => i.billId = db.nextBuyBillId) = L := by
      rw [List.filter_eq_self]
      intro it hit
      simpa using hbids it hit
    rw [h1, h2, List.nil_append]
  have hNfilter : (req.items.foldl (applyBuyItem db.nextBuyBillId)
      (buyDb1 db req)).buyBillItems.filter
        (fun i => ¬ i.billId = db.nextBuyBillId) = db.buyBillItems := by
    rw [hitems', List.filter_append]
    have h1 : db.buyBillItems.filter
        (fun i => ¬ i.billId = db.nextBuyBillId) = db.buyBillItems := by
      rw [List.filter_eq_self]
      intro it hit
      simpa using hfresh it hit
    have h2 : L.filter (fun i => ¬ i.billId = db.nextBuyBillId) = [] := by
      rw [List.filter_eq_nil_iff]
      intro it hit
      simpa using hbids it hit
    rw [h1, h2, List.append_nil]
  have hBfilter : (req.items.foldl (applyBuyItem db.nextBuyBillId)
      (buyDb1 db req)).buyBills.filter
        (fun b => ¬ b.id = db.nextBuyBillId) = db.buyBills := by
    rw [hbb', List.filter_append]
    have h1 : db.buyBills.filter (fun b => ¬ b.id = db.nextBuyBillId) =
        db.buyBills := by
      rw [List.filter_eq_self]
      intro b hb
      simpa using hbills b hb
    have h2 : ([buyBillHeader db req].filter
        (fun b => ¬ b.id = db.nextBuyBillId)) = [] := by
      simp [buyBillHeader_id]
    rw [h1, h2, List.append_nil]
  rw [createBuyBill_eq]
  dsimp only
  rw [buyBillHeader_id, deleteBuyBill_eq, hLfilter, hfold]
  refine ⟨_, tail.map (fun x => (x.1, x.2.1, x.2.2.1, (0 : Int))), rfl,
    ?_, ?_, ?_, ?_⟩
  · show dbF.products.map projQ = _
    rw [hprojF]
    have hgc : (req.items.foldl (applyBuyItem db.nextBuyBillId)
        (buyDb1 db req)).products.map (fun p =>
          (p.id, p.uniqueId, p.name, p.quantity - qtyBought L p.id)) =
        ((req.items.foldl (applyBuyItem db.nextBuyBillId)
          (buyDb1 db req)).products.map projQ).map (fun x =>
            (x.1, x.2.1, x.2.2.1, x.2.2.2 - qtyBought L x.1)) := by
      rw [List.map_map]
      rfl
    rw [hgc, hproj', List.map_append]
    congr 1
    · rw [List.map_map]
      apply List.map_congr_left
      intro p _
      show (p.id, p.uniqueId, p.name,
        p.quantity + qtyBought L p.id - qtyBought L p.id) = projQ p
      have h4 : p.quantity + qtyBought L p.id - qtyBought L p.id =
          p.quantity := by omega
      rw [h4]
      rfl
    · apply List.map_congr_left
      intro x hx
      have hx4 : x.2.2.2 = qtyBought L x.1 := (htail x hx).1
      show (x.1, x.2.1, x.2.2.1, x.2.2.2 - qtyBought L x.1) = _
      rw [hx4]
      have h0 : qtyBought L x.1 - qtyBought L x.1 = (0 : Int) := by omega
      rw [h0]
  · intro x hx
    obtain ⟨y, _, rfl⟩ := List.mem_map.mp hx
    rfl
  · show dbF.buyBills.filter _ = _
    rw [hFbills]
    exact hBfilter
  · show dbF.buyBillItems.filter _ = _
    rw [hFitems]
    exact hNfilter

theorem foldlM_singleton {ε α β : Type} (f : β → α → Except ε β) (b : β)
    (a : α) : List.foldlM f b [a] = f b a := by
  rw [List.foldlM_cons]
  simp [List.foldlM_nil]

theorem mkBuyItem_totalCost (bid pid : Nat) (item : BuyItemReq) :
    (mkBuyItem bid pid item).totalCost =
      round2 (item.buyPrice * (item.quantity : ℚ)) := rfl

theorem setQtyAvg_self_avg (pid : Nat) (q : Int) (a : ℚ) (p : Product)
    (hp : p.id = pid) : (setQtyAvg pid q a p).averageBuyPrice = a := by
  unfold setQtyAvg
  rw [if_pos hp]

/-- Average-cost round trip for a single-item purchase bill on an existing
product: when no rounding interferes — the stored average, the new
weighted average and the item's total cost are all whole hundredths — and
the product had positive stock, deletion restores the average exactly. -/
theorem buyRoundtrip_single_avg (db : DB) (req : CreateBuyBillRequest)
    (item : BuyItemReq) (p : Product)
    (hreq : req.items = [item])
    (hids : (db.products.map (fun q => q.id)).Nodup)
    (hfind : findByUid db.products (genUniqueId item) = some p)
    (hfresh : ∀ it ∈ db.buyBillItems, ¬ it.billId = db.nextBuyBillId)
    (hr1 : round2 p.averageBuyPrice = p.averageBuyPrice)
    (hr2 : round2 (buyNewAvg p item) = buyNewAvg p item)
    (hr3 : round2 (item.buyPrice * (item.quantity : ℚ)) =
      item.buyPrice * (item.quantity : ℚ))
    (hq0p : 0 < p.quantity)
    (hqi : 0 ≤ item.quantity) :
    ∃ dbDel,
      deleteBuyBill (createBuyBill db req).1 (createBuyBill db req).2.id =
        .ok dbDel ∧
      (findById dbDel.products p.id).map (fun q => q.averageBuyPrice) =
        some p.averageBuyPrice := by
  have hpm : p ∈ db.products := List.mem_of_find?_eq_some hfind
  rw [createBuyBill_eq]
  dsimp only
  rw [buyBillHeader_id, hreq, List.foldl_cons, List.foldl_nil]
  have hfind1 : findByUid (buyDb1 db req).products (genUniqueId item) =
      some p := hfind
  rw [applyBuyItem_char_found db.nextBuyBillId (buyDb1 db req) item p hfind1]
  rw [deleteBuyBill_eq]
  have hFil : List.filter (fun i => i.billId = db.nextBuyBillId)
      (buyDbFound db.nextBuyBillId (buyDb1 db req) item p).buyBillItems =
      [mkBuyItem db.nextBuyBillId p.id item] := by
    show (db.buyBillItems ++ [mkBuyItem db.nextBuyBillId p.id item]).filter
      _ = _
    rw [List.filter_append]
    have h1 : db.buyBillItems.filter
        (fun i => i.billId = db.nextBuyBillId) = [] := by
      rw [List.filter_eq_nil_iff]
      intro it hit
      simpa using hfresh it hit
    have h2 : ([mkBuyItem db.nextBuyBillId p.id item].filter
        (fun i => i.billId = db.nextBuyBillId)) =
        [mkBuyItem db.nextBuyBillId p.id item] := by
      simp [mkBuyItem_billId]
    rw [h1, h2, List.nil_append]
  rw [hFil, foldlM_singleton]
  have hfindC : findById
      (buyDbFound db.nextBuyBillId (buyDb1 db req) item p).products
      (mkBuyItem db.nextBuyBillId p.id item).productRef =
      some (setQtyAvg p.id (p.quantity + item.quantity)
        (round2 (buyNewAvg p item)) p) := by
    rw [mkBuyItem_productRef]
    show findById (db.products.map (setQtyAvg p.id
      (p.quantity + item.quantity) (round2 (buyNewAvg p item)))) p.id = _
    rw [findById_map_pres db.products p.id _
      (setQtyAvg_id p.id (p.quantity + item.quantity)
        (round2 (buyNewAvg p item)))]
    rw [findById_of_mem db.products hids p hpm]
    rfl
  have hpCq : (setQtyAvg p.id (p.quantity + item.quantity)
      (round2 (buyNewAvg p item)) p).quantity =
      p.quantity + item.quantity := by
    unfold setQtyAvg
    rw [if_pos rfl]
  have hpCa : (setQtyAvg p.id (p.quantity + item.quantity)
      (round2 (buyNewAvg p item)) p).averageBuyPrice =
      buyNewAvg p item := by
    unfold setQtyAvg
    rw [if_pos rfl]
    exact hr2
  have hpCid : (setQtyAvg p.id (p.quantity + item.quantity)
      (round2 (buyNewAvg p item)) p).id = p.id := setQtyAvg_id _ _ _ _
  have hge : ¬ (setQtyAvg p.id (p.quantity + item.quantity)
      (round2 (buyNewAvg p item)) p).quantity -
      (mkBuyItem db.nextBuyBillId p.id item).quantity < 0 := by
    rw [hpCq, mkBuyItem_quantity]
    omega
  rw [deleteBuyItemStep_found _ _ _ hfindC hge]
  refine ⟨_, rfl, ?_⟩
  have havg : round2 (delNewAvg (setQtyAvg p.id (p.quantity + item.quantity)
      (round2 (buyNewAvg p item)) p) (mkBuyItem db.nextBuyBillId p.id item)) =
      p.averageBuyPrice := by
    unfold delNewAvg
    rw [hpCq, hpCa, mkBuyItem_quantity, mkBuyItem_totalCost, hr3]
    rw [if_pos (by omega : p.quantity + item.quantity - item.quantity > 0)]
    have hq0ne : ((p.quantity : Int) : ℚ) ≠ 0 :=
      Int.cast_ne_zero.mpr (by omega)
    have hqsne : (((p.quantity + item.quantity : Int)) : ℚ) ≠ 0 :=
      Int.cast_ne_zero.mpr (by omega)
    have hbn : buyNewAvg p item =
        (p.averageBuyPrice * (p.quantity : ℚ) +
          item.buyPrice * (item.quantity : ℚ)) /
          ((p.quantity + item.quantity : Int) : ℚ) := by
      unfold buyNewAvg
      rw [if_pos (by omega : p.quantity + item.quantity > 0)]
    rw [hbn]
    have hsub : p.quantity + item.quantity - item.quantity = p.quantity := by
      omega
    rw [hsub]
    have hx : (p.averageBuyPrice * (p.quantity : ℚ) +
        item.buyPrice * (item.quantity : ℚ)) /
        ((p.quantity + item.quantity : Int) : ℚ) *
        ((p.quantity + item.quantity : Int) : ℚ) -
        item.buyPrice * (item.quantity : ℚ) =
        p.averageBuyPrice * (p.quantity : ℚ) := by
      rw [div_mul_cancel₀ _ hqsne]
      ring
    push_cast
    push_cast at hx hqsne hq0ne
    rw [hx]
    rw [mul_div_assoc, div_self hq0ne, mul_one]
    exact hr1
  show ((findById (List.map (setQtyAvg (setQtyAvg p.id
        (p.quantity + item.quantity) (round2 (buyNewAvg p item)) p).id
        ((setQtyAvg p.id (p.quantity + item.quantity)
          (round2 (buyNewAvg p item)) p).quantity -
          (mkBuyItem db.nextBuyBillId p.id item).quantity)
        (round2 (delNewAvg (setQtyAvg p.id (p.quantity + item.quantity)
          (round2 (buyNewAvg p item)) p)
          (mkBuyItem db.nextBuyBillId p.id item))))
        (buyDbFound db.nextBuyBillId (buyDb1 db req) item p).products)
      p.id).map (fun q => q.averageBuyPrice)) = some p.averageBuyPrice
  rw [findById_map_pres _ p.id _ (fun q => setQtyAvg_id _ _ _ q)]
  rw [show findById
      (buyDbFound db.nextBuyBillId (buyDb1 db req) item p).products p.id =
      some (setQtyAvg p.id (p.quantity + item.quantity)
        (round2 (buyNewAvg p item)) p) from by
    rw [← mkBuyItem_productRef db.nextBuyBillId p.id item]
    exact hfindC]
  simp only [Option.map_some']
  rw [setQtyAvg_self_avg _ _ _ _ rfl]
  exact congrArg some havg

/-- A thrown deletion error rolls the transaction back: the committed state
is unchanged. -/
theorem deleteBuyBill_error_rollback (db : DB) (id : Nat) (e : StorageError)
    (h : deleteBuyBill db id = .error e) : runDeleteBuyBill db id = db := by
  unfold runDeleteBuyBill
  rw [h]

/-- Whenever removing a bill's quantities would drive some product's stock
negative, `deleteBuyBill` throws. -/
theorem deleteBuyBill_would_negative_errors (db : DB) (id : Nat)
    (hids : (db.products.map (fun p => p.id)).Nodup)
    (hq : ∀ it ∈ db.buyBillItems, it.billId = id → 0 ≤ it.quantity)
    (hq0 : ∀ p ∈ db.products, 0 ≤ p.quantity)
    (hbad : ∃ p ∈ db.products, p.quantity <
      qtyBought (db.buyBillItems.filter (fun i => i.billId = id)) p.id) :
    ∃ e, deleteBuyBill db id = .error e := by
  cases hf : (db.buyBillItems.filter (fun i => i.billId = id)).foldlM
      deleteBuyItemStep db with
  | error e =>
      refine ⟨e, ?_⟩
      rw [deleteBuyBill_eq, hf]
  | ok dbF =>
      exfalso
      obtain ⟨p, hp, hlt⟩ := hbad
      have hb := deleteBuyFold_ok_bound _ db dbF hids
        (fun it hit => hq it (List.mem_of_mem_filter hit)
          (by simpa using List.of_mem_filter hit))
        hq0 hf p hp
      omega

/-! ### Dashboard characterization -/

/-- Claim-side monthly profit: the sum of the stored per-sale profits of the
sell bills dated in a given month. -/
def monthProfit (db : DB) (m : Nat × Nat) : ℚ :=
  ((db.sellBills.filter (fun b => b.billDate.monthKey = m)).map
    (fun b => b.totalProfit)).sum

/-- Claim-side monthly expenses: the sum of the expenses dated in a given
month. -/
def monthExpense (db : DB) (m : Nat × Nat) : ℚ :=
  ((db.expenses.filter (fun e => e.expenseDate.monthKey = m)).map
    (fun e => e.amount)).sum

theorem inYear_year_eq {y : Nat} {d : Date} (h : d.inYear y = true) :
    d.year = y := by
  unfold Date.inYear Date.le at h
  simp only [Bool.and_eq_true, decide_eq_true_eq] at h
  omega

theorem inYear_month_bounds {y : Nat} {d : Date} (h : d.inYear y = true) :
    1 ≤ d.month ∧ d.month ≤ 12 := by
  unfold Date.inYear Date.le at h
  simp only [Bool.and_eq_true, decide_eq_true_eq] at h
  omega

theorem inYear_of {y : Nat} {d : Date} (hy : d.year = y) (hm1 : 1 ≤ d.month)
    (hm2 : d.month ≤ 12) (hd1 : 1 ≤ d.day) (hd2 : d.day ≤ 31) :
    d.inYear y = true := by
  unfold Date.inYear Date.le
  simp only [Bool.and_eq_true, decide_eq_true_eq]
  omega

/-- Keys of a keyed map filtered to one key, read through the values. -/
theorem filter_map_key {α β : Type} [DecidableEq α] (ms : List α)
    (f : α → β) (m : α) :
    (((ms.map (fun x => (x, f x))).filter (fun r => r.1 = m)).map
      (fun r => r.2)) = (ms.filter (fun x => x = m)).map f := by
  induction ms with
  | nil => rfl
  | cons a t ih =>
      by_cases ha : a = m
      · subst ha
        simp only [List.map_cons, List.filter_cons]
        rw [if_pos (by simp), if_pos (by simp)]
        simp only [List.map_cons]
        rw [ih]
      · simp only [List.map_cons, List.filter_cons]
        rw [if_neg (by simpa using ha), if_neg (by simpa using ha)]
        exact ih

/-- Filtering a duplicate-free list to one element. -/
theorem nodup_filter_eq {α : Type} [DecidableEq α] (ms : List α)
    (hms : ms.Nodup) (m : α) :
    ms.filter (fun x => x = m) = if m ∈ ms then [m] else [] := by
  induction ms with
  | nil => simp
  | cons a t ih =>
      obtain ⟨hna, hnt⟩ := List.nodup_cons.mp hms
      by_cases ha : a = m
      · subst ha
        rw [List.filter_cons, if_pos (by simp)]
        rw [ih hnt, if_neg hna, if_pos (List.mem_cons_self a t)]
      · rw [List.filter_cons, if_neg (by simpa using ha)]
        rw [ih hnt]
        by_cases hm : m ∈ t
        · rw [if_pos hm, if_pos (List.mem_cons_of_mem _ hm)]
        · rw [if_neg hm, if_neg (by
            intro hc
            rcases List.mem_cons.mp hc with hc1 | hc2
            · exact ha hc1.symm
            · exact hm hc2)]

/-- Within a fixed month of the target year, the year filter of the chart
query is redundant (given day fields of valid ISO dates). -/
theorem year_month_filter_sells (db : DB) (y : Nat) (m : Nat × Nat)
    (hbd : ∀ b ∈ db.sellBills, 1 ≤ b.billDate.day ∧ b.billDate.day ≤ 31)
    (hm1 : m.1 = y) (hm2 : 1 ≤ m.2) (hm3 : m.2 ≤ 12) :
    (db.sellBills.filter (fun b => b.billDate.inYear y)).filter
      (fun b => b.billDate.monthKey = m) =
    db.sellBills.filter (fun b => b.billDate.monthKey = m) := by
  rw [List.filter_filter]
  apply List.filter_congr
  intro b hb
  by_cases hk : b.billDate.monthKey = m
  · have hyear : b.billDate.year = m.1 := congrArg (fun x => x.1) hk
    have hmon : b.billDate.month = m.2 := congrArg (fun x => x.2) hk
    have hin : b.billDate.inYear y = true :=
      inYear_of (by omega) (by omega) (by omega) (hbd b hb).1 (hbd b hb).2
    simp [hk, hin]
  · simp [hk]

theorem year_month_filter_expenses (db : DB) (y : Nat) (m : Nat × Nat)
    (hed : ∀ e ∈ db.expenses, 1 ≤ e.expenseDate.day ∧ e.expenseDate.day ≤ 31)
    (hm1 : m.1 = y) (hm2 : 1 ≤ m.2) (hm3 : m.2 ≤ 12) :
    (db.expenses.filter (fun e => e.expenseDate.inYear y)).filter
      (fun e => e.expenseDate.monthKey = m) =
    db.expenses.filter (fun e => e.expenseDate.monthKey = m) := by
  rw [List.filter_filter]
  apply List.filter_congr
  intro e he
  by_cases hk : e.expenseDate.monthKey = m
  · have hyear : e.expenseDate.year = m.1 := congrArg (fun x => x.1) hk
    have hmon : e.expenseDate.month = m.2 := congrArg (fun x => x.2) hk
    have hin : e.expenseDate.inYear y = true :=
      inYear_of (by omega) (by omega) (by omega) (hed e he).1 (hed e he).2
    simp [hk, hin]
  · simp [hk]

/-- Every row of the `sales` CTE carries a month of the target year and the
month's total stored profit. -/
theorem salesRows_value (db : DB) (y : Nat)
    (hbd : ∀ b ∈ db.sellBills, 1 ≤ b.billDate.day ∧ b.billDate.day ≤ 31)
    (r : (Nat × Nat) × ℚ × ℚ) (hr : r ∈ salesRows db y) :
    r.1.1 = y ∧ 1 ≤ r.1.2 ∧ r.1.2 ≤ 12 ∧ r.2.1 = monthProfit db r.1 := by
  unfold salesRows at hr
  obtain ⟨m, hm, rfl⟩ := List.mem_map.mp hr
  have hm' := List.mem_dedup.mp hm
  obtain ⟨b, hbmem, hbk⟩ := List.mem_map.mp hm'
  have hbin : b.billDate.inYear y = true := (List.mem_filter.mp hbmem).2
  have hyear : b.billDate.year = y := inYear_year_eq hbin
  have hbounds := inYear_month_bounds hbin
  have hk1 : m.1 = y := by
    rw [← hbk]
    exact hyear
  have hk2 : 1 ≤ m.2 := by
    rw [← hbk]
    exact hbounds.1
  have hk3 : m.2 ≤ 12 := by
    rw [← hbk]
    exact hbounds.2
  refine ⟨hk1, hk2, hk3, ?_⟩
  show (((db.sellBills.filter (fun b => b.billDate.inYear y)).filter
    (fun b => b.billDate.monthKey = m)).map (fun b => b.totalProfit)).sum = _
  rw [year_month_filter_sells db y m hbd hk1 hk2 hk3]
  rfl

/-- Every row of the `exps` CTE carries a month of the target year and the
month's total expenses. -/
theorem expenseRows_value (db : DB) (y : Nat)
    (hed : ∀ e ∈ db.expenses, 1 ≤ e.expenseDate.day ∧ e.expenseDate.day ≤ 31)
    (x : (Nat × Nat) × ℚ) (hx : x ∈ expenseRows db y) :
    x.1.1 = y ∧ 1 ≤ x.1.2 ∧ x.1.2 ≤ 12 ∧ x.2 = monthExpense db x.1 := by
  unfold expenseRows at hx
  obtain ⟨m, hm, rfl⟩ := List.mem_map.mp hx
  have hm' := List.mem_dedup.mp hm
  obtain ⟨e, hemem, hek⟩ := List.mem_map.mp hm'
  have hein : e.expenseDate.inYear y = true := (List.mem_filter.mp hemem).2
  have hyear : e.expenseDate.year = y := inYear_year_eq hein
  have hbounds := inYear_month_bounds hein
  have hk1 : m.1 = y := by
    rw [← hek]
    exact hyear
  have hk2 : 1 ≤ m.2 := by
    rw [← hek]
    exact hbounds.1
  have hk3 : m.2 ≤ 12 := by
    rw [← hek]
    exact hbounds.2
  refine ⟨hk1, hk2, hk3, ?_⟩
  show (((db.expenses.filter (fun e => e.expenseDate.inYear y)).filter
    (fun e => e.expenseDate.monthKey = m)).map (fun e => e.amount)).sum = _
  rw [year_month_filter_expenses db y m hed hk1 hk2 hk3]
  rfl

/-- The expense amount the FULL OUTER JOIN attaches to a month of the year
is exactly that month's total expenses. -/
theorem expense_join_sum (db : DB) (y : Nat) (m : Nat × Nat)
    (hed : ∀ e ∈ db.expenses, 1 ≤ e.expenseDate.day ∧ e.expenseDate.day ≤ 31)
    (hm1 : m.1 = y) (hm2 : 1 ≤ m.2) (hm3 : m.2 ≤ 12) :
    (((expenseRows db y).filter (fun x => x.1 = m)).map
      (fun x => x.2)).sum = monthExpense db m := by
  unfold expenseRows
  rw [filter_map_key]
  rw [nodup_filter_eq _ (List.nodup_dedup _) m]
  by_cases hmem : m ∈ ((db.expenses.filter
      (fun e => e.expenseDate.inYear y)).map
        (fun e => e.expenseDate.monthKey)).dedup
  · rw [if_pos hmem]
    simp only [List.map_cons, List.map_nil, List.sum_cons, List.sum_nil,
      add_zero]
    show (((db.expenses.filter (fun e => e.expenseDate.inYear y)).filter
      (fun e => e.expenseDate.monthKey = m)).map (fun e => e.amount)).sum = _
    rw [year_month_filter_expenses db y m hed hm1 hm2 hm3]
    rfl
  · rw [if_neg hmem]
    simp only [List.map_nil, List.sum_nil]
    have hnone : db.expenses.filter
        (fun e => e.expenseDate.monthKey = m) = [] := by
      rw [List.filter_eq_nil_iff]
      intro e he hk
      simp only [decide_eq_true_eq] at hk
      apply hmem
      rw [List.mem_dedup]
      refine List.mem_map.mpr ⟨e, ?_, hk⟩
      refine List.mem_filter.mpr ⟨he, ?_⟩
      have hyear : e.expenseDate.year = m.1 := congrArg (fun x => x.1) hk
      have hmon : e.expenseDate.month = m.2 := congrArg (fun x => x.2) hk
      exact inYear_of (by omega) (by omega) (by omega) (hed e he).1
        (hed e he).2
    unfold monthExpense
    rw [hnone]
    rfl

/-- A month with no `sales` row has no sell bills at all (valid dates). -/
theorem sales_absent (db : DB) (y : Nat) (m : Nat × Nat)
    (hbd : ∀ b ∈ db.sellBills, 1 ≤ b.billDate.day ∧ b.billDate.day ≤ 31)
    (hm1 : m.1 = y) (hm2 : 1 ≤ m.2) (hm3 : m.2 ≤ 12)
    (h : (salesRows db y).filter (fun r => r.1 = m) = []) :
    monthProfit db m = 0 := by
  have hnotin : m ∉ ((db.sellBills.filter
      (fun b => b.billDate.inYear y)).map
        (fun b => b.billDate.monthKey)).dedup := by
    intro hmem
    have hrow : ((m,
        (((db.sellBills.filter (fun b => b.billDate.inYear y)).filter
          (fun b => b.billDate.monthKey = m)).map
            (fun b => b.totalProfit)).sum,
        (((db.sellBills.filter (fun b => b.billDate.inYear y)).filter
          (fun b => b.billDate.monthKey = m)).map
            (fun b => b.totalAmount)).sum) :
        (Nat × Nat) × ℚ × ℚ) ∈ (salesRows db y).filter
          (fun r => r.1 = m) := by
      refine List.mem_filter.mpr ⟨?_, by simp⟩
      unfold salesRows
      exact List.mem_map.mpr ⟨m, hmem, rfl⟩
    rw [h] at hrow
    cases hrow
  have hnone : db.sellBills.filter
      (fun b => b.billDate.monthKey = m) = [] := by
    rw [List.filter_eq_nil_iff]
    intro b hb hk
    simp only [decide_eq_true_eq] at hk
    apply hnotin
    rw [List.mem_dedup]
    refine List.mem_map.mpr ⟨b, ?_, hk⟩
    refine List.mem_filter.mpr ⟨hb, ?_⟩
    have hyear : b.billDate.year = m.1 := congrArg (fun x => x.1) hk
    have hmon : b.billDate.month = m.2 := congrArg (fun x => x.2) hk
    exact inYear_of (by omega) (by omega) (by omega) (hbd b hb).1 (hbd b hb).2
  unfold monthProfit
  rw [hnone]
  rfl

/-! ### Sample states used by witnesses and counterexamples -/

/-- A state holding one product of unique id `"x"`, quantity 1, stored
average price 1.00. -/
def dbOneX : DB :=
  ⟨[⟨1, "x", "c", none, "x", 1, 1⟩], [], [], [], [], [], 2, 1, 1⟩

/-- A purchase line item for product `"x"`: 2 units at price 2. -/
def itemBuy22 : BuyItemReq := ⟨some "x", "x", "c", none, 2, 2⟩

/-- A purchase bill consisting of the single item `itemBuy22`. -/
def reqBuy22 : CreateBuyBillRequest := ⟨none, none, none, ⟨2026, 1, 1⟩, [itemBuy22]⟩

/-! ### C6 -/

/-- C6: deleting a sell bill just created by `createSellBill` (in a state
with distinct product ids and fresh serial ids) adds back to each
referenced product exactly the quantity its line items sold, so the
products table — and with it every product's quantity — returns to its
exact pre-sale value; the bill header and item tables return to their
pre-sale contents as well. -/
theorem deleteSellBill_restores_quantities (db : DB)
    (req : CreateSellBillRequest) (db' : DB) (bill : SellBill)
    (hids : (db.products.map (fun p => p.id)).Nodup)
    (hfresh : ∀ it ∈ db.sellBillItems, ¬ it.billId = db.nextSellBillId)
    (hbills : ∀ b ∈ db.sellBills, ¬ b.id = db.nextSellBillId)
    (h : createSellBill db req = .ok (db', bill)) :
    (deleteSellBill db' bill.id).products = db.products ∧
    (deleteSellBill db' bill.id).sellBills = db.sellBills ∧
    (deleteSellBill db' bill.id).sellBillItems = db.sellBillItems := by
  obtain ⟨hbid, hprod, hitems, hsb, _, _, _, _, _, _, _, _⟩ :=
    createSellBill_ok_char db req db' bill hids hbills h
  obtain ⟨dprod, ditems, dsb, _, _, _⟩ := deleteSellBill_char db' bill.id
  have hLfilter : db'.sellBillItems.filter (fun i => i.billId = bill.id) =
      req.items.map (mkSellItem db.products bill.id) := by
    rw [hitems, List.filter_append]
    have h1 : db.sellBillItems.filter (fun i => i.billId = bill.id) = [] := by
      rw [List.filter_eq_nil_iff]
      intro it hit
      simpa [hbid] using hfresh it hit
    have h2 : (req.items.map (mkSellItem db.products bill.id)).filter
        (fun i => i.billId = bill.id) =
        req.items.map (mkSellItem db.products bill.id) := by
      rw [List.filter_eq_self]
      intro it hit
      obtain ⟨j, _, rfl⟩ := List.mem_map.mp hit
      simp [mkSellItem_billId]
    rw [h1, h2, List.nil_append]
  have hNfilter : db'.sellBillItems.filter (fun i => ¬ i.billId = bill.id) =
      db.sellBillItems := by
    rw [hitems, List.filter_append]
    have h1 : db.sellBillItems.filter (fun i => ¬ i.billId = bill.id) =
        db.sellBillItems := by
      rw [List.filter_eq_self]
      intro it hit
      simpa [hbid] using hfresh it hit
    have h2 : (req.items.map (mkSellItem db.products bill.id)).filter
        (fun i => ¬ i.billId = bill.id) = [] := by
      rw [List.filter_eq_nil_iff]
      intro it hit
      obtain ⟨j, _, rfl⟩ := List.mem_map.mp hit
      simp [mkSellItem_billId]
    rw [h1, h2, List.append_nil]
  have hBfilter : db'.sellBills.filter (fun s => ¬ s.id = bill.id) =
      db.sellBills := by
    rw [hsb, List.filter_append]
    have h1 : db.sellBills.filter (fun s => ¬ s.id = bill.id) =
        db.sellBills := by
      rw [List.filter_eq_self]
      intro b hb
      simpa [hbid] using hbills b hb
    have h2 : ([bill].filter (fun s => ¬ s.id = bill.id)) = [] := by simp
    rw [h1, h2, List.append_nil]
  refine ⟨?_, ?_, ?_⟩
  · rw [dprod, hLfilter, hprod, List.map_map]
    have hpt : ∀ p ∈ db.products,
        ((fun p => ({ p with quantity := (p.quantity +
            qtySold (req.items.map (mkSellItem db.products bill.id)) p.id) } :
              Product)) ∘ (fun p => ({ p with quantity := (p.quantity -
            qtySold (req.items.map (mkSellItem db.products bill.id)) p.id) } :
              Product))) p = p := by
      intro p _
      show ({ p with quantity := (p.quantity -
          qtySold (req.items.map (mkSellItem db.products bill.id)) p.id +
          qtySold (req.items.map (mkSellItem db.products bill.id)) p.id) } :
            Product) = p
      rw [sub_add_cancel]
    rw [List.map_congr_left hpt]
    exact List.map_id _
  · rw [dsb, hBfilter]
  · rw [ditems, hNfilter]

/-- A sell request: one unit of `"x"` at price 2. -/
def reqSell21 : CreateSellBillRequest :=
  ⟨none, none, none, none, ⟨2026, 1, 2⟩, [⟨"x", 2, 1⟩]⟩

/-- The bill returned by `createSellBill dbOneX reqSell21`. -/
def billSell21 : SellBill := ⟨1, none, none, none, none, 0, ⟨2026, 1, 2⟩, 1, 2⟩

/-- The committed state after `createSellBill dbOneX reqSell21`. -/
def dbAfterSell21 : DB :=
  ⟨[⟨1, "x", "c", none, "x", 0, 1⟩], [], [], [billSell21],
   [⟨1, 1, "x", 2, 1, 1, 1⟩], [], 2, 1, 2⟩

/-- Concrete evaluation: selling one unit of `"x"` at price 2 from the
sample state commits `dbAfterSell21` and returns `billSell21`. -/
theorem createSellBill_sample :
    createSellBill dbOneX reqSell21 = .ok (dbAfterSell21, billSell21) := by
  simp [createSellBill, sellBill0, sellDb1, applySellItem, findByUid, dbOneX,
    reqSell21, billSell21, dbAfterSell21, List.find?, List.foldlM]
  norm_num [round2, round_eq]

/-- Witness for C6: create-then-delete of a one-item sell bill on the
sample state restores it exactly. -/
theorem deleteSellBill_restores_quantities_witness :
    ((dbOneX.products.map (fun p => p.id)).Nodup ∧
     (∀ it ∈ dbOneX.sellBillItems, ¬ it.billId = dbOneX.nextSellBillId) ∧
     (∀ b ∈ dbOneX.sellBills, ¬ b.id = dbOneX.nextSellBillId)) ∧
    ((deleteSellBill dbAfterSell21 billSell21.id).products = dbOneX.products ∧
     (deleteSellBill dbAfterSell21 billSell21.id).sellBills =
       dbOneX.sellBills ∧
     (deleteSellBill dbAfterSell21 billSell21.id).sellBillItems =
       dbOneX.sellBillItems) :=
  ⟨⟨by decide, by decide, by decide⟩,
   deleteSellBill_restores_quantities dbOneX reqSell21 dbAfterSell21 billSell21
     (by decide) (by decide) (by decide) createSellBill_sample⟩

/-! ### C10 -/

/-- C10 (amended): `deleteSellBill` never fails for a business-rule reason —
it is a total function that commits for every bill id, existing or not.
Its only product effect is to add back each matching line item's recorded
quantity (so ids, unique ids, names and average buy prices are all
unchanged); whenever the bill's recorded item quantities are
non-negative, no referenced product's quantity decreases.  (With a
negative recorded quantity — which the input schema admits — the addition
decreases the quantity, so the unconditional "only increases" of the
claim fails.) -/
theorem deleteSellBill_total_effect (db : DB) (id : Nat) :
    (deleteSellBill db id).products = db.products.map (fun p =>
      { p with quantity := (p.quantity +
          qtySold (db.sellBillItems.filter (fun i => i.billId = id)) p.id) }) ∧
    ((∀ it ∈ db.sellBillItems, 0 ≤ it.quantity) →
      ∀ p ∈ db.products, p.quantity ≤ p.quantity +
        qtySold (db.sellBillItems.filter (fun i => i.billId = id)) p.id) := by
  refine ⟨(deleteSellBill_char db id).1, ?_⟩
  intro hq p _
  have hnn := qtySold_nonneg (db.sellBillItems.filter (fun i => i.billId = id))
    p.id (fun it hit => hq it (List.mem_of_mem_filter hit))
  omega

/-- Witness for C10 on the post-sale sample state. -/
theorem deleteSellBill_total_effect_witness :
    (∀ it ∈ dbAfterSell21.sellBillItems, 0 ≤ it.quantity) ∧
    (∀ p ∈ dbAfterSell21.products, p.quantity ≤ p.quantity +
        qtySold (dbAfterSell21.sellBillItems.filter (fun i => i.billId = 1))
          p.id) :=
  ⟨by decide, (deleteSellBill_total_effect dbAfterSell21 1).2 (by decide)⟩

/-- A state holding one product of unique id `"x"` with quantity 6. -/
def dbSixX : DB :=
  ⟨[⟨1, "x", "c", none, "x", 6, 1⟩], [], [], [], [], [], 2, 1, 1⟩

/-- A schema-valid sell request for -1 units of `"x"`: `z.number()` puts no
lower bound on quantity, and the stock guard `6 < -1` does not fire. -/
def reqSellNeg : CreateSellBillRequest :=
  ⟨none, none, none, none, ⟨2026, 1, 3⟩, [⟨"x", 2, -1⟩]⟩

/-- The bill returned by `createSellBill dbSixX reqSellNeg`. -/
def billSellNeg : SellBill :=
  ⟨1, none, none, none, none, 0, ⟨2026, 1, 3⟩, -1, -2⟩

/-- The committed state after `createSellBill dbSixX reqSellNeg`. -/
def dbAfterSellNeg : DB :=
  ⟨[⟨1, "x", "c", none, "x", 7, 1⟩], [], [], [billSellNeg],
   [⟨1, 1, "x", 2, -1, 1, -1⟩], [], 2, 1, 2⟩

/-- C10 counterexample: a sell bill with a (schema-valid) negative line
quantity commits and raises stock from 6 to 7; deleting that bill then
LOWERS the referenced product's quantity from 7 back to 6, so
`deleteSellBill` does not only increase the quantities of referenced
products. -/
theorem deleteSellBill_can_decrease_quantity :
    createSellBill dbSixX reqSellNeg = .ok (dbAfterSellNeg, billSellNeg) ∧
    (findByUid dbAfterSellNeg.products "x").map (fun p => p.quantity) =
      some 7 ∧
    (findByUid (deleteSellBill dbAfterSellNeg billSellNeg.id).products "x").map
      (fun p => p.quantity) = some 6 ∧
    ¬ ((7 : Int) ≤ 6) := by
  refine ⟨?_, by decide, ?_, by decide⟩
  · simp [createSellBill, sellBill0, sellDb1, applySellItem, findByUid,
      dbSixX, reqSellNeg, billSellNeg, dbAfterSellNeg, List.find?,
      List.foldlM]
    norm_num [round2, round_eq]
  · decide

/-! ### C7 -/

/-- C7 (amended): for every accepted sell-bill line item, the recorded
per-unit profit is `sellingPrice - averageBuyPrice` of the product at the
time of the sale **rounded to two decimals** (earlier items of the same
bill never change averages, so the pre-bill snapshot is the
at-sale-time average); the recorded line total profit is the unrounded
per-unit profit times the quantity, rounded to two decimals; and the
bill's stored total profit is the rounded sum of the **unrounded** line
profits.  All three agree with the claim's exact values whenever the
involved prices are whole numbers of hundredths. -/
theorem createSellBill_profit_records (db : DB) (req : CreateSellBillRequest)
    (db' : DB) (bill : SellBill)
    (hids : (db.products.map (fun p => p.id)).Nodup)
    (hbills : ∀ b ∈ db.sellBills, ¬ b.id = db.nextSellBillId)
    (h : createSellBill db req = .ok (db', bill)) :
    db'.sellBillItems = db.sellBillItems ++
      req.items.map (mkSellItem db.products bill.id) ∧
    (∀ i ∈ req.items, ∀ p, findByUid db.products i.uniqueId = some p →
      mkSellItem db.products bill.id i = ⟨bill.id, p.id, p.uniqueId,
        round2 i.sellingPrice, i.quantity,
        round2 (i.sellingPrice - p.averageBuyPrice),
        round2 ((i.sellingPrice - p.averageBuyPrice) * (i.quantity : ℚ))⟩) ∧
    bill.totalProfit = round2 ((req.items.map (lineProfit db.products)).sum) ∧
    (∀ i ∈ req.items, ∀ p, findByUid db.products i.uniqueId = some p →
      lineProfit db.products i =
        (i.sellingPrice - p.averageBuyPrice) * (i.quantity : ℚ)) := by
  obtain ⟨hbid, _, hitems, _, _, _, _, _, _, _, htp, _⟩ :=
    createSellBill_ok_char db req db' bill hids hbills h
  refine ⟨hitems, ?_, htp, ?_⟩
  · intro i _ p hfind
    simp [mkSellItem, hfind]
  · intro i _ p hfind
    simp [lineProfit, hfind]

/-- Witness for C7 on the one-item sample sale. -/
theorem createSellBill_profit_records_witness :
    (dbOneX.products.map (fun p => p.id)).Nodup ∧
    dbAfterSell21.sellBillItems = dbOneX.sellBillItems ++
      reqSell21.items.map (mkSellItem dbOneX.products billSell21.id) ∧
    billSell21.totalProfit =
      round2 ((reqSell21.items.map (lineProfit dbOneX.products)).sum) :=
  ⟨by decide,
   (createSellBill_profit_records dbOneX reqSell21 dbAfterSell21 billSell21
      (by decide) (by decide) createSellBill_sample).1,
   (createSellBill_profit_records dbOneX reqSell21 dbAfterSell21 billSell21
      (by decide) (by decide) createSellBill_sample).2.2.1⟩

/-- A sell request whose price 2.006 needs more than two decimals. -/
def reqSellFrac : CreateSellBillRequest :=
  ⟨none, none, none, none, ⟨2026, 1, 4⟩, [⟨"x", 1003/500, 1⟩]⟩

/-- C7 counterexample: selling at 2.006 against average 1.00 records a
per-unit profit of 1.01 (= `(1.006).toFixed(2)`), not the exact
`sellingPrice - averageBuyPrice` = 1.006. -/
theorem createSellBill_profit_not_exact :
    ((runCreateSellBill dbOneX reqSellFrac).1.sellBillItems.map
      (fun it => it.profitPerUnit)) = [101/100] ∧
    ((101 : ℚ)/100) ≠ 1003/500 - 1 := by
  constructor
  · simp [runCreateSellBill, createSellBill, sellBill0, sellDb1, applySellItem,
      findByUid, dbOneX, reqSellFrac, List.find?, List.foldlM]
    norm_num [round2, round_eq]
  · norm_num

/-! ### C2 -/

/-- C2 (amended): `createSellBill` succeeds exactly when, processing the
line items in order against the running (decremented) stock, every item's
product exists and its quantity does not exceed the product's on-hand
quantity at that moment; and whenever it fails with an insufficient-stock
error, the error names the name of a product of the table together with
its available on-hand quantity, which is smaller than a requested line
quantity (the shortfall is the difference of the two, but the error
itself carries the available quantity, not the shortfall). -/
theorem createSellBill_stock_guard (db : DB) (req : CreateSellBillRequest) :
    ((∃ res, createSellBill db req = .ok res) ↔
      canSell db.products req.items = true) ∧
    (∀ name avail, createSellBill db req =
        .error (.insufficientStock name avail) →
      name ∈ db.products.map (fun p => p.name) ∧
      ∃ i ∈ req.items, avail < i.quantity) := by
  constructor
  · constructor
    · rintro ⟨res, hres⟩
      unfold createSellBill at hres
      cases hfold : req.items.foldlM (applySellItem (sellBill0 db req).id)
          (sellDb1 db req, 0, 0) with
      | error e =>
          rw [hfold] at hres
          exact absurd hres (by simp)
      | ok r =>
          exact (sellFold_ok_iff (sellBill0 db req).id req.items
            (sellDb1 db req) 0 0).mp ⟨r, hfold⟩
    · intro hcs
      obtain ⟨r, hr⟩ := (sellFold_ok_iff (sellBill0 db req).id req.items
        (sellDb1 db req) 0 0).mpr hcs
      obtain ⟨db2, tpf, taf⟩ := r
      unfold createSellBill
      rw [hr]
      exact ⟨_, rfl⟩
  · intro name avail herr
    unfold createSellBill at herr
    cases hfold : req.items.foldlM (applySellItem (sellBill0 db req).id)
        (sellDb1 db req, 0, 0) with
    | error e =>
        rw [hfold] at herr
        have he : e = .insufficientStock name avail :=
          (Except.error.injEq _ _).mp herr
        subst he
        exact sellFold_insufficient_char (sellBill0 db req).id req.items
          (sellDb1 db req) 0 0 name avail hfold
    | ok r =>
        obtain ⟨db2, tpf, taf⟩ := r
        rw [hfold] at herr
        exact absurd herr (by simp)

/-- A sell request for 5 units of `"x"` (only 1 on hand). -/
def reqSellOver : CreateSellBillRequest :=
  ⟨none, none, none, none, ⟨2026, 1, 5⟩, [⟨"x", 2, 5⟩]⟩

/-- C2 counterexample to the error's content: requesting 5 units with 1 on
hand fails with an error carrying the product name and the available
quantity 1 — its message interpolates the availability — while the
shortfall is 4, a number the error does not carry. -/
theorem insufficientStock_names_available_not_shortfall :
    createSellBill dbOneX reqSellOver = .error (.insufficientStock "x" 1) ∧
    StorageError.message (.insufficientStock "x" 1) =
      "Insufficient stock for x. Available: 1" ∧
    (5 : Int) - 1 = 4 ∧ ¬ ((1 : Int) = 4) := by
  refine ⟨?_, by decide, by decide, by decide⟩
  simp [createSellBill, sellBill0, sellDb1, applySellItem, findByUid,
    dbOneX, reqSellOver, List.find?, List.foldlM]

/-- A purchase item: 1 unit of `"x"` at price 3 (all whole hundredths). -/
def itemBuy13 : BuyItemReq := ⟨some "x", "x", "c", none, 3, 1⟩

/-- A single-item purchase bill with no rounding involved. -/
def reqBuy13 : CreateBuyBillRequest :=
  ⟨none, none, none, ⟨2026, 1, 6⟩, [itemBuy13]⟩

/-! ### C3 -/

/-- C3 (amended): creating then deleting a purchase bill (on a well-formed
non-negative state with schema-sensible non-negative quantities)
succeeds, restores every pre-existing product's id, unique id, name and
quantity exactly, leaves the products created by the bill at quantity
zero, and restores the bill tables; the pre-purchase **average buy
price** is restored exactly for a single-item bill whenever no
two-decimal rounding interferes and the product had positive stock
(otherwise it can differ by rounding, see the counterexample); and in
general `deleteBuyBill` is refused — with the committed state unchanged —
whenever removing the bill's quantities would make any product's stock
negative. -/
theorem deleteBuyBill_roundtrip (db : DB) (req : CreateBuyBillRequest)
    (hwf : ProductsWF db.products db.nextProductId)
    (hq0 : ∀ p ∈ db.products, 0 ≤ p.quantity)
    (hqi : ∀ i ∈ req.items, 0 ≤ i.quantity)
    (hfresh : ∀ it ∈ db.buyBillItems, ¬ it.billId = db.nextBuyBillId)
    (hbills : ∀ b ∈ db.buyBills, ¬ b.id = db.nextBuyBillId) :
    (∃ dbDel tail0,
      deleteBuyBill (createBuyBill db req).1 (createBuyBill db req).2.id =
        .ok dbDel ∧
      dbDel.products.map projQ = db.products.map projQ ++ tail0 ∧
      (∀ x ∈ tail0, x.2.2.2 = (0 : Int)) ∧
      dbDel.buyBills = db.buyBills ∧
      dbDel.buyBillItems = db.buyBillItems) ∧
    (∀ (item : BuyItemReq) (p : Product), req.items = [item] →
      findByUid db.products (genUniqueId item) = some p →
      round2 p.averageBuyPrice = p.averageBuyPrice →
      round2 (buyNewAvg p item) = buyNewAvg p item →
      round2 (item.buyPrice * (item.quantity : ℚ)) =
        item.buyPrice * (item.quantity : ℚ) →
      0 < p.quantity →
      ∃ dbDel1,
        deleteBuyBill (createBuyBill db req).1 (createBuyBill db req).2.id =
          .ok dbDel1 ∧
        (findById dbDel1.products p.id).map (fun q => q.averageBuyPrice) =
          some p.averageBuyPrice) ∧
    (∀ (db2 : DB) (id2 : Nat) (e : StorageError),
      deleteBuyBill db2 id2 = .error e → runDeleteBuyBill db2 id2 = db2) ∧
    (∀ (db2 : DB) (id2 : Nat),
      (db2.products.map (fun p => p.id)).Nodup →
      (∀ it ∈ db2.buyBillItems, it.billId = id2 → 0 ≤ it.quantity) →
      (∀ p ∈ db2.products, 0 ≤ p.quantity) →
      (∃ p ∈ db2.products, p.quantity <
        qtyBought (db2.buyBillItems.filter (fun i => i.billId = id2)) p.id) →
      ∃ e, deleteBuyBill db2 id2 = .error e) := by
  refine ⟨buyRoundtrip_main db req hwf hq0 hqi hfresh hbills, ?_, ?_, ?_⟩
  · intro item p hreq hfind hr1 hr2 hr3 hp0
    exact buyRoundtrip_single_avg db req item p hreq hwf.1 hfind hfresh
      hr1 hr2 hr3 hp0
      (hqi item (by rw [hreq]; exact List.mem_singleton_self _))
  · intro db2 id2 e he
    exact deleteBuyBill_error_rollback db2 id2 e he
  · intro db2 id2 h1 h2 h3 h4
    exact deleteBuyBill_would_negative_errors db2 id2 h1 h2 h3 h4

/-- Witness for C3: buy 1 unit of `"x"` at price 3 on the sample state, then
delete the bill. -/
theorem deleteBuyBill_roundtrip_witness :
    ((dbOneX.products.map (fun p => p.id)).Nodup ∧
     (dbOneX.products.map (fun p => p.uniqueId)).Nodup ∧
     (∀ p ∈ dbOneX.products, p.id < dbOneX.nextProductId) ∧
     (∀ p ∈ dbOneX.products, 0 ≤ p.quantity) ∧
     (∀ i ∈ reqBuy13.items, 0 ≤ i.quantity) ∧
     (∀ it ∈ dbOneX.buyBillItems, ¬ it.billId = dbOneX.nextBuyBillId) ∧
     (∀ b ∈ dbOneX.buyBills, ¬ b.id = dbOneX.nextBuyBillId)) ∧
    (∃ dbDel tail0,
      deleteBuyBill (createBuyBill dbOneX reqBuy13).1
          (createBuyBill dbOneX reqBuy13).2.id = .ok dbDel ∧
      dbDel.products.map projQ = dbOneX.products.map projQ ++ tail0 ∧
      (∀ x ∈ tail0, x.2.2.2 = (0 : Int)) ∧
      dbDel.buyBills = dbOneX.buyBills ∧
      dbDel.buyBillItems = dbOneX.buyBillItems) :=
  ⟨⟨by decide, by decide, by decide, by decide, by decide, by decide,
    by decide⟩,
   (deleteBuyBill_roundtrip dbOneX reqBuy13 ⟨by decide, by decide, by decide⟩
     (by decide) (by decide) (by decide) (by decide)).1⟩

/-- C3 counterexample: after buying 2 units at price 2 of a product with
quantity 1 and average 1.00 (stored average becomes the rounded 1.67),
deleting the purchase bill yields average 1.01, not the pre-purchase
1.00 — the round trip is not exact. -/
theorem deleteBuyBill_average_not_restored :
    ((deleteBuyBill (createBuyBill dbOneX reqBuy22).1
        (createBuyBill dbOneX reqBuy22).2.id).toOption.map (fun d =>
      (findByUid d.products "x").map (fun p => p.averageBuyPrice))) =
      some (some (101/100)) ∧
    (findByUid dbOneX.products "x").map (fun p => p.averageBuyPrice) =
      some 1 ∧
    ((101 : ℚ)/100) ≠ 1 := by
  refine ⟨?_, by simp [dbOneX, findByUid, List.find?], by norm_num⟩
  simp [createBuyBill, applyBuyItem, deleteBuyBill, deleteBuyItemStep,
    dbOneX, reqBuy22, itemBuy22, genUniqueId, findByUid, findById,
    List.find?, List.foldlM, Except.toOption]
  norm_num [round2, round_eq]

/-! ### C1 -/

/-- C1 (amended): when `createBuyBill` applies a purchase item (each item of
the bill passes through `applyBuyItem`, of which `createBuyBill` is the
fold) to a product with prior quantity `oldQty` and prior average price
`oldAvg`, the stored quantity afterwards is `oldQty + newQty`, and the
stored average buy price is `(oldAvg*oldQty + newPrice*newQty) /
(oldQty+newQty)` rounded to two decimals (the value of `.toFixed(2)`), the
quotient being replaced by 0 when `oldQty + newQty` is not positive. -/
theorem applyBuyItem_weighted_average (billId : Nat) (db : DB)
    (item : BuyItemReq) (prior : Product)
    (hfind : findByUid db.products (genUniqueId item) = some prior) :
    findByUid (applyBuyItem billId db item).products (genUniqueId item) =
      some { prior with
        quantity := prior.quantity + item.quantity
        averageBuyPrice := round2 (if prior.quantity + item.quantity > 0 then
          (prior.averageBuyPrice * (prior.quantity : ℚ) +
              item.buyPrice * (item.quantity : ℚ)) /
            ((prior.quantity + item.quantity : Int) : ℚ)
          else 0) } := by
  simp only [applyBuyItem, hfind, findByUid_map_qtyAvg, Option.map_some]
  simp

/-- Witness for C1 at a concrete state: product `"x"` with quantity 1 and
average 1.00 bought again, 2 units at price 2. -/
theorem applyBuyItem_weighted_average_witness :
    findByUid dbOneX.products (genUniqueId itemBuy22) =
        some ⟨1, "x", "c", none, "x", 1, 1⟩ ∧
    findByUid (applyBuyItem 1 dbOneX itemBuy22).products
        (genUniqueId itemBuy22) =
      some { (⟨1, "x", "c", none, "x", 1, 1⟩ : Product) with
        quantity := (1 : Int) + 2
        averageBuyPrice := round2 (if (1 : Int) + 2 > 0 then
          ((1 : ℚ) * ((1 : Int) : ℚ) + 2 * ((2 : Int) : ℚ)) /
            (((1 + 2 : Int)) : ℚ) else 0) } :=
  ⟨by decide, applyBuyItem_weighted_average 1 dbOneX itemBuy22 _ (by decide)⟩

/-- C1 counterexample: the claim demands the exact algebraic average, but
after buying 2 units at price 2 of a product with quantity 1 and average
1.00 the stored average is the rounded 1.67, not 5/3. -/
theorem createBuyBill_average_not_exact :
    (findByUid (createBuyBill dbOneX reqBuy22).1.products "x").map
        (fun p => p.averageBuyPrice) = some (167 / 100) ∧
    ((167 : ℚ) / 100) ≠ ((1 : ℚ) * 1 + 2 * 2) / (1 + 2) := by
  constructor
  · simp [createBuyBill, reqBuy22, applyBuyItem, dbOneX, itemBuy22,
      genUniqueId, findByUid, List.find?]
    norm_num [round2, round_eq]
  · norm_num

/-! ### C9 -/

/-- C9: `createSellBill` accepts an empty items list (the input schema puts
no lower bound on the array): it commits, the returned bill has total
amount, total profit and GST amount all zero, and the products table is
untouched. -/
theorem createSellBill_empty_items (db : DB) (req : CreateSellBillRequest)
    (h : req.items = []) :
    ∃ db' bill, createSellBill db req = .ok (db', bill) ∧
      bill.totalAmount = 0 ∧ bill.totalProfit = 0 ∧ bill.gstAmount = 0 ∧
      db'.products = db.products := by
  unfold createSellBill
  rw [h]
  cases hg : req.gstPercentage with
  | none =>
    refine ⟨_, _, rfl, ?_, ?_, ?_, rfl⟩ <;> simp [round2_zero]
  | some g =>
    refine ⟨_, _, rfl, ?_, ?_, ?_, rfl⟩ <;> simp [round2_zero]

/-- Witness for C9: an empty sell bill against the sample state. -/
theorem createSellBill_empty_items_witness :
    (⟨none, none, none, some 18, ⟨2026, 1, 1⟩, []⟩ :
        CreateSellBillRequest).items = [] ∧
    ∃ db' bill, createSellBill dbOneX
        ⟨none, none, none, some 18, ⟨2026, 1, 1⟩, []⟩ = .ok (db', bill) ∧
      bill.totalAmount = 0 ∧ bill.totalProfit = 0 ∧ bill.gstAmount = 0 ∧
      db'.products = dbOneX.products :=
  ⟨rfl, createSellBill_empty_items dbOneX _ rfl⟩

/-! ### C5 -/

/-- C5: the two creation endpoints are transactional.  `createBuyBill`
throws nothing, so its fully applied state is always committed; for
`createSellBill` the committed state is either the fully applied state of
a successful run or, when any step throws (missing product or
insufficient stock on any line item), exactly the unchanged input state
— `db.transaction` rolls every partial effect back. -/
theorem createBills_atomic (db : DB) (reqB : CreateBuyBillRequest)
    (reqS : CreateSellBillRequest) :
    runCreateBuyBill db reqB =
      ((createBuyBill db reqB).1, some (createBuyBill db reqB).2) ∧
    ((∃ db' bill, createSellBill db reqS = .ok (db', bill) ∧
        runCreateSellBill db reqS = (db', some bill)) ∨
     (∃ e, createSellBill db reqS = .error e ∧
        runCreateSellBill db reqS = (db, none))) := by
  refine ⟨rfl, ?_⟩
  cases hc : createSellBill db reqS with
  | ok pr => exact .inl ⟨pr.1, pr.2, rfl, by simp [runCreateSellBill, hc]⟩
  | error e => exact .inr ⟨e, rfl, by simp [runCreateSellBill, hc]⟩

/-! ### C4 -/

/-- A purchase item for product `"x"` with schema-valid negative quantity:
`z.number()` (src/shared/routes.ts:65) puts no lower bound on `quantity`. -/
def itemBuyNeg : BuyItemReq := ⟨some "x", "x", "c", none, 10, -2⟩

/-- C4 failing-input evaluation: `createBuyBill` performs no validation of
item quantities, so a purchase of -2 units of product `"x"` (on-hand 1)
commits a product quantity of -1, violating the non-negativity
invariant. -/
theorem createBuyBill_commits_negative_quantity :
    (findByUid (createBuyBill dbOneX
        ⟨none, none, none, ⟨2026, 1, 1⟩, [itemBuyNeg]⟩).1.products "x").map
      (fun p => p.quantity) = some (-1) ∧ (-1 : Int) < 0 := by
  constructor
  · simp [createBuyBill, applyBuyItem, dbOneX, itemBuyNeg, genUniqueId,
      findByUid, List.find?]
  · decide

/-! ### C8 -/

/-- A state with sell bills in October and March 2026 and expenses in both
months, all with valid dates and nothing dated after October 2026. -/
def dbC8 : DB :=
  ⟨[], [], [],
   [⟨1, none, none, none, none, 0, ⟨2026, 10, 5⟩, 5, 9⟩,
    ⟨2, none, none, none, none, 0, ⟨2026, 3, 2⟩, 3, 7⟩],
   [],
   [⟨1, 2, "misc", ⟨2026, 10, 20⟩, none⟩,
    ⟨2, 1, "misc", ⟨2026, 3, 9⟩, none⟩],
   1, 1, 3⟩

/-- A state whose only sell bill is dated November 2026, later than the
wall-clock month (October 2026) used in the counterexample below. -/
def dbC8x : DB :=
  ⟨[], [], [], [⟨1, none, none, none, none, 0, ⟨2026, 11, 5⟩, 5, 9⟩],
   [], [], 1, 1, 2⟩

/-- **C8** (amended).  Monthly chart clause (unconditional, for states whose
dates carry valid day-of-month fields): every row of the dashboard's
monthly data reports, for its month, exactly the sum of the profits of the
sell bills dated in that month minus the sum of the expenses dated in that
month.  Current-month clause: the current-month profit and expense figures
equal the exact sums over records dated in the current month provided no
record is dated after the current month — the code filters only with
`billDate >= startOfMonth`, with no upper bound, so later-dated records
would also be counted (see the counterexample
`dashboard_currentMonth_counts_future_bill`). -/
theorem dashboard_monthly_profit (db : DB) (now : Date) (year : Option Nat)
    (hbd : ∀ b ∈ db.sellBills, 1 ≤ b.billDate.day ∧ b.billDate.day ≤ 31)
    (hed : ∀ e ∈ db.expenses,
      1 ≤ e.expenseDate.day ∧ e.expenseDate.day ≤ 31) :
    (∀ row ∈ (getDashboardStats db now year).monthlyData,
      row.2.1 = monthProfit db row.1 - monthExpense db row.1) ∧
    ((∀ b ∈ db.sellBills,
        Date.le ⟨now.year, now.month, 1⟩ b.billDate = true →
        b.billDate.monthKey = (now.year, now.month)) →
     (∀ e ∈ db.expenses,
        Date.le ⟨now.year, now.month, 1⟩ e.expenseDate = true →
        e.expenseDate.monthKey = (now.year, now.month)) →
     (getDashboardStats db now year).currentMonthProfit =
        monthProfit db (now.year, now.month) -
          monthExpense db (now.year, now.month) ∧
     (getDashboardStats db now year).currentMonthExpense =
        monthExpense db (now.year, now.month)) := by
  refine ⟨?_, ?_⟩
  · intro row hrow
    have hmd : (getDashboardStats db now year).monthlyData =
        monthlyChartRows db (year.getD now.year) := rfl
    rw [hmd] at hrow
    simp only [monthlyChartRows, List.mem_append] at hrow
    rcases hrow with hA | hB
    · obtain ⟨r, hr, rfl⟩ := List.mem_map.mp hA
      obtain ⟨h1, h2, h3, h4⟩ :=
        salesRows_value db (year.getD now.year) hbd r hr
      show r.2.1 - _ = monthProfit db r.1 - monthExpense db r.1
      rw [h4, expense_join_sum db (year.getD now.year) r.1 hed h1 h2 h3]
    · obtain ⟨x, hxf, rfl⟩ := List.mem_map.mp hB
      have hx := List.mem_of_mem_filter hxf
      have hfil := (List.mem_filter.mp hxf).2
      simp only [decide_eq_true_eq] at hfil
      obtain ⟨h1, h2, h3, h4⟩ :=
        expenseRows_value db (year.getD now.year) hed x hx
      have hzero :=
        sales_absent db (year.getD now.year) x.1 hbd h1 h2 h3 hfil
      show 0 - x.2 = monthProfit db x.1 - monthExpense db x.1
      rw [hzero, h4]
  intro hnow hnowE
  have hsf : db.sellBills.filter
      (fun b => Date.le ⟨now.year, now.month, 1⟩ b.billDate) =
      db.sellBills.filter
        (fun b => b.billDate.monthKey = (now.year, now.month)) := by
    apply List.filter_congr
    intro b hb
    by_cases hk : b.billDate.monthKey = (now.year, now.month)
    · have hyear : b.billDate.year = now.year := congrArg (fun x => x.1) hk
      have hmon : b.billDate.month = now.month := congrArg (fun x => x.2) hk
      have hd := (hbd b hb).1
      have hle : Date.le ⟨now.year, now.month, 1⟩ b.billDate = true := by
        unfold Date.le
        rw [decide_eq_true_eq]
        exact Or.inr ⟨hyear.symm, Or.inr ⟨hmon.symm, hd⟩⟩
      simp [hle, hk]
    · rcases Bool.eq_false_or_eq_true
        (Date.le ⟨now.year, now.month, 1⟩ b.billDate) with hle | hle
      · exact absurd (hnow b hb hle) hk
      · simp [hle, hk]
  have hef : db.expenses.filter
      (fun e => Date.le ⟨now.year, now.month, 1⟩ e.expenseDate) =
      db.expenses.filter
        (fun e => e.expenseDate.monthKey = (now.year, now.month)) := by
    apply List.filter_congr
    intro e he
    by_cases hk : e.expenseDate.monthKey = (now.year, now.month)
    · have hyear : e.expenseDate.year = now.year := congrArg (fun x => x.1) hk
      have hmon : e.expenseDate.month = now.month :=
        congrArg (fun x => x.2) hk
      have hd := (hed e he).1
      have hle : Date.le ⟨now.year, now.month, 1⟩ e.expenseDate = true := by
        unfold Date.le
        rw [decide_eq_true_eq]
        exact Or.inr ⟨hyear.symm, Or.inr ⟨hmon.symm, hd⟩⟩
      simp [hle, hk]
    · rcases Bool.eq_false_or_eq_true
        (Date.le ⟨now.year, now.month, 1⟩ e.expenseDate) with hle | hle
      · exact absurd (hnowE e he hle) hk
      · simp [hle, hk]
  refine ⟨?_, ?_⟩
  · show (((db.sellBills.filter
        (fun b => Date.le ⟨now.year, now.month, 1⟩ b.billDate)).map
          (fun b => b.totalProfit)).sum) -
      (((db.expenses.filter
        (fun e => Date.le ⟨now.year, now.month, 1⟩ e.expenseDate)).map
          (fun e => e.amount)).sum) =
      monthProfit db (now.year, now.month) -
        monthExpense db (now.year, now.month)
    rw [hsf, hef]
    rfl
  · show (((db.expenses.filter
        (fun e => Date.le ⟨now.year, now.month, 1⟩ e.expenseDate)).map
          (fun e => e.amount)).sum) = monthExpense db (now.year, now.month)
    rw [hef]
    rfl

/-- Witness for C8 on a concrete state with October and March 2026 records,
wall clock in October 2026; the valid-day hypotheses and the
no-future-record antecedents of the current-month clause all hold by
computation. -/
theorem dashboard_monthly_profit_witness :
    (∀ row ∈ (getDashboardStats dbC8 ⟨2026, 10, 15⟩ none).monthlyData,
      row.2.1 = monthProfit dbC8 row.1 - monthExpense dbC8 row.1) ∧
    (getDashboardStats dbC8 ⟨2026, 10, 15⟩ none).currentMonthProfit =
      monthProfit dbC8 (2026, 10) - monthExpense dbC8 (2026, 10) ∧
    (getDashboardStats dbC8 ⟨2026, 10, 15⟩ none).currentMonthExpense =
      monthExpense dbC8 (2026, 10) :=
  ⟨(dashboard_monthly_profit dbC8 ⟨2026, 10, 15⟩ none (by decide)
      (by decide)).1,
   (dashboard_monthly_profit dbC8 ⟨2026, 10, 15⟩ none (by decide)
      (by decide)).2 (by decide) (by decide)⟩

/-- C8 counterexample: the current-month filter `billDate >= startOfMonth`
(storage.ts:283-305) has no upper bound, so with the wall clock at
2026-10-15 a sell bill dated 2026-11-05 with profit 5 is counted in the
current-month profit, which reports 5 although October's bills minus
October's expenses total 0. -/
theorem dashboard_currentMonth_counts_future_bill :
    (getDashboardStats dbC8x ⟨2026, 10, 15⟩ none).currentMonthProfit = 5 ∧
    monthProfit dbC8x (2026, 10) - monthExpense dbC8x (2026, 10) = 0 := by
  constructor
  · show (((dbC8x.sellBills.filter
        (fun b => Date.le ⟨2026, 10, 1⟩ b.billDate)).map
          (fun b => b.totalProfit)).sum) -
      (((dbC8x.expenses.filter
        (fun e => Date.le ⟨2026, 10, 1⟩ e.expenseDate)).map
          (fun e => e.amount)).sum) = 5
    norm_num [dbC8x, Date.le, List.filter]
  · norm_num [monthProfit, monthExpense, dbC8x, Date.monthKey, List.filter]

end Inventory
